import Mathlib

/-!
Verification development for the steeeam stat-card service
(`src/unnamed/part_000`).  The JavaScript source is shallowly embedded:
pure computations become Lean functions, the module-level caches become an
explicit `Store` threaded through the fetch functions, upstream network
calls become function-valued environment parameters (`FetchEnv`), and the
canvas surface becomes a list of abstract draw operations (`DrawOp`).
Machine integers in the source are ordinary JS numbers used within safe
integer range; they are modelled with `Nat` / `Int` / `ℚ`, with JS `NaN` /
`Infinity` represented explicitly by `JsNum` where division can produce
them.  Text metrics (`ctx.measureText`) depend on a font engine that is not
part of the repository; they are modelled as an abstract width function
`measure : String → Nat` carried in `RenderEnv`, as are the helper
formatters imported from `@/utils/utils` (code of the repository that is
not under `src/`).
-/

deriving instance DecidableEq for Except

namespace Steeeam

/-! ## Cache TTL constants (source lines 14-17, milliseconds) -/

def CACHE_TTL : Nat := 60 * 60 * 1000

def AVATAR_CACHE_TTL : Nat := 24 * 60 * 60 * 1000

def STEAMID_CACHE_TTL : Nat := 7 * 24 * 60 * 60 * 1000

def GAME_DATA_CACHE_TTL : Nat := 6 * 60 * 60 * 1000

/-- `isCacheValid(timestamp, ttl)` (source lines 19-21): `Date.now() - timestamp < ttl`.
`Date.now()` is passed explicitly as `now`.  Timestamps never exceed `now` in a
run, and for `ts ≤ now` the JS subtraction agrees with `Nat` subtraction. -/
def isCacheValid (now ts ttl : Nat) : Bool := now - ts < ttl

/-! ## JS numbers: binary64 with NaN / Infinity

JS numbers are IEEE-754 binary64 doubles.  A finite double is an exact
rational, and each arithmetic operation rounds its exact result to the
nearest representable value (ties to even).  `fl` below performs that
rounding for nonnegative values in the normal range (roughly `2^-1000` to
`2^1000`, which covers every quantity the renderer computes); subnormal
and overflowing magnitudes are outside the modelled inputs.  `NaN` (0/0)
and `Infinity` (n/0, n>0) are explicit constructors. -/

/-- Round a rational to the nearest integer, ties to even — the IEEE-754
default rounding applied to the scaled mantissa. -/
def roundNE (x : ℚ) : ℤ :=
  if x - ⌊x⌋ < 1 / 2 then ⌊x⌋
  else if 1 / 2 < x - ⌊x⌋ then ⌊x⌋ + 1
  else if ⌊x⌋ % 2 = 0 then ⌊x⌋ else ⌊x⌋ + 1

/-- `⌊log₂ q⌋` by repeated halving, for `1 ≤ q` (fuel-bounded). -/
def log2Up : Nat → ℚ → ℤ
  | 0, _ => 0
  | fuel + 1, q => if q < 2 then 0 else 1 + log2Up fuel (q / 2)

/-- `⌊log₂ q⌋` by repeated doubling, for `0 < q < 1` (fuel-bounded). -/
def log2Down : Nat → ℚ → ℤ
  | 0, _ => -1
  | fuel + 1, q => if 1 ≤ q * 2 then -1 else log2Down fuel (q * 2) - 1

/-- `⌊log₂ q⌋` for positive `q`; exact whenever `|⌊log₂ q⌋| < 1100`. -/
def log2floorQ (q : ℚ) : ℤ :=
  if 1 ≤ q then log2Up 1100 q else log2Down 1100 q

/-- Binary64 rounding of a nonnegative exact value: scale the value into
`[2^52, 2^53)`, round the 53-bit mantissa to nearest (ties to even), and
scale back. -/
def fl (q : ℚ) : ℚ :=
  if q = 0 then 0
  else ((roundNE (q * 2 ^ ((52 : ℤ) - log2floorQ q)) : ℤ) : ℚ) / 2 ^ ((52 : ℤ) - log2floorQ q)

inductive JsNum where
  | nan
  | inf
  | val (q : ℚ)
deriving DecidableEq

/-- Multiply a `JsNum` by a positive constant (used for `* 100`), rounding
the product to binary64 as the JS multiplication does. -/
def JsNum.mulPos (x : JsNum) (c : ℚ) : JsNum :=
  match x with
  | .nan => .nan
  | .inf => .inf
  | .val q => .val (fl (q * c))

/-! ## JS string-to-number conversions

`border_width` arrives as a query-string value, compared with `>= 10`
(which applies JS `ToNumber`) and then passed through `parseInt`.  The
decimal forms relevant here are modelled: optional sign, digits, optional
fraction.  Exponent notation, `Infinity` literals, hex forms and
whitespace trimming are outside the modelled input grammar. -/

def digitVal (c : Char) : Nat := c.toNat - 48

def parseDigitsAcc : List Char → Nat → Nat
  | [], acc => acc
  | c :: cs, acc => parseDigitsAcc cs (10 * acc + digitVal c)

/-- `parseInt` on an unsigned tail: longest digit prefix, `none` (NaN) if empty. -/
def jsParseIntDigits (cs : List Char) : Option Nat :=
  let ds := cs.takeWhile Char.isDigit
  if ds.isEmpty then none else some (parseDigitsAcc ds 0)

/-- JS `parseInt` (radix 10): optional sign then longest digit prefix;
truncates any fractional part by simply stopping at the `'.'`. -/
def jsParseInt (cs : List Char) : Option Int :=
  match cs with
  | [] => none
  | c :: rest =>
    if c = '-' then (jsParseIntDigits rest).map (fun n => -(n : Int))
    else if c = '+' then (jsParseIntDigits rest).map (fun n => (n : Int))
    else (jsParseIntDigits (c :: rest)).map (fun n => (n : Int))

/-- Magnitude part of JS `ToNumber`: digits, optional `'.'` digits. -/
def jsToNumberMag (cs : List Char) : Option ℚ :=
  let intDs := cs.takeWhile Char.isDigit
  match cs.dropWhile Char.isDigit with
  | [] => if intDs.isEmpty then none else some ((parseDigitsAcc intDs 0 : Nat) : ℚ)
  | c :: frac =>
    if c = '.' then
      if frac.all Char.isDigit && !(intDs.isEmpty && frac.isEmpty) then
        some (((parseDigitsAcc intDs 0 : Nat) : ℚ) +
              ((parseDigitsAcc frac 0 : Nat) : ℚ) / (10 ^ frac.length))
      else none
    else none

/-- JS `ToNumber` on a string (restricted grammar, see above); the empty
string converts to `0`, anything unparsable to `NaN`. -/
def jsToNumber (cs : List Char) : JsNum :=
  match cs with
  | [] => .val 0
  | c :: rest =>
    if c = '-' then
      match jsToNumberMag rest with
      | some q => .val (-q)
      | none => .nan
    else if c = '+' then
      match jsToNumberMag rest with
      | some q => .val q
      | none => .nan
    else
      match jsToNumberMag (c :: rest) with
      | some q => .val q
      | none => .nan

/-- JS `>=` against the number `10`: `NaN` compares false, `Infinity` true. -/
def jsNumGe10 : JsNum → Bool
  | .nan => false
  | .inf => true
  | .val q => decide (10 ≤ q)

/-- Line width for the border stroke (source line 595):
`parseInt(border_width >= 10 ? 10 : border_width)`.  When the query
parameter is absent the default parameter `border_width = 1` applies, and
`parseInt(1 >= 10 ? 10 : 1) = 1`.  `none` in the result is `NaN`. -/
def borderLineWidth : Option String → Option Int
  | none => some 1
  | some s => if jsNumGe10 (jsToNumber s.data) then some 10 else jsParseInt s.data

/-! ## Username truncation (source lines 361-380) -/

def ellipsis : String := "..."

/-- The truncation loop: `for (i = 0; i < username.length; i++)` keeps the
last index whose `slice(0, i) + '...'` measured at most 180, breaking at
the first overflow.  `fuel` counts the remaining iterations (`len - i`). -/
def truncGo (m : String → Nat) (name : String) : Nat → Nat → Nat → Nat
  | 0, _, acc => acc
  | Nat.succ fuel, i, acc =>
    if 180 < m (name.take i ++ ellipsis) then acc
    else truncGo m name fuel (i + 1) i

def truncLen (m : String → Nat) (name : String) : Nat :=
  truncGo m name name.length 0 0

/-- The username as drawn: unmodified when its width is at most 180,
otherwise the loop's prefix followed by `'...'`. -/
def renderedUsername (m : String → Nat) (name : String) : String :=
  if 180 < m name then name.take (truncLen m name) ++ ellipsis else name

/-! ## Progress computation (source lines 492-552) -/

/-- JS division of the two counts: `0/0` is `NaN`, `n/0` with `n > 0` is
`Infinity`, otherwise the binary64 rounding of the exact quotient (IEEE
division is correctly rounded). -/
def jsDiv (p t : Nat) : JsNum :=
  if t = 0 then (if p = 0 then .nan else .inf) else .val (fl ((p : ℚ) / (t : ℚ)))

/-- `toFixed(0)` of a `JsNum` (only applied to nonnegative finite values in
the source; ties round up, away from zero for the nonnegative range). -/
def toFixed0 : JsNum → String
  | .nan => "NaN"
  | .inf => "Infinity"
  | .val q => toString (⌊q + 1/2⌋ : Int)

/-! ## Draw operations

Each canvas call in `createFullCanvas` is recorded as one abstract
operation.  `globalAlpha` and the exact font metrics of positions do not
affect any claim and alpha is not recorded; coordinates and colors are. -/

inductive DrawOp where
  | fillRect (x y w h : Int) (color : String)
  | fillText (text : String) (x y : Int) (color : String) (font : String)
  | image (x y : Int)
  | line (x1 y1 x2 y2 : Int) (color : String) (lineWidth : Int)
  | roundedRect (x y : Int) (w : JsNum) (h radius : Int) (color : String)
  | avatarImage (x y : Int) (w h : ℚ)
  | borderRect (x y w h : Int) (color : String) (lineWidth : Option Int)
deriving DecidableEq

def DrawOp.isRoundedRect : DrawOp → Bool
  | .roundedRect _ _ _ _ _ _ => true
  | _ => false

def DrawOp.isAvatarImage : DrawOp → Bool
  | .avatarImage _ _ _ _ => true
  | _ => false

/-! ## Render configuration (query parameters and theme, source 299-340) -/

structure Params where
  bg_color : Option String
  title_color : Option String
  sub_title_color : Option String
  text_color : Option String
  username_color : Option String
  id_color : Option String
  cp_color : Option String
  ip_color : Option String
  div_color : Option String
  border_color : Option String
  border_width : Option String
  progbar_bg : Option String
  progbar_color : Option String
  hide_border : Option String
  theme : Option String
deriving DecidableEq

def Params.none0 : Params :=
  ⟨none, none, none, none, none, none, none, none, none, none, none, none, none, none, none⟩

structure Palette where
  bg : String
  title : String
  subTitle : String
  text : String
  username : String
  id : String
  cp : String
  ip : String
  div : String
  border : String
  progBg : String
  progColor : String
deriving DecidableEq

/-- Default parameter values (source 302-315) followed by the theme blocks
(source 318-340).  The `dark` and `light` blocks each overwrite ten of the
colors; `cp_color` and `ip_color` appear in neither block. -/
def resolveColors (p : Params) : Palette :=
  let bg := p.bg_color.getD "0b0b0b"
  let title := p.title_color.getD "fff"
  let subTitle := p.sub_title_color.getD "adadad"
  let text := p.text_color.getD "fff"
  let username := p.username_color.getD "fff"
  let id := p.id_color.getD "adadad"
  let cp := p.cp_color.getD "f87171"
  let ip := p.ip_color.getD "4ade80"
  let div := p.div_color.getD "ffffff30"
  let border := p.border_color.getD "ffffff30"
  let progBg := p.progbar_bg.getD "313131"
  let progColor := p.progbar_color.getD "006fee"
  let bg := if p.theme = some "dark" then "0b0b0b" else bg
  let title := if p.theme = some "dark" then "fff" else title
  let subTitle := if p.theme = some "dark" then "adadad" else subTitle
  let text := if p.theme = some "dark" then "fff" else text
  let username := if p.theme = some "dark" then "fff" else username
  let id := if p.theme = some "dark" then "adadad" else id
  let div := if p.theme = some "dark" then "ffffff30" else div
  let border := if p.theme = some "dark" then "ffffff30" else border
  let progBg := if p.theme = some "dark" then "ffffff30" else progBg
  let progColor := if p.theme = some "dark" then "006fee" else progColor
  let bg := if p.theme = some "light" then "fff" else bg
  let title := if p.theme = some "light" then "000" else title
  let subTitle := if p.theme = some "light" then "000" else subTitle
  let text := if p.theme = some "light" then "000" else text
  let username := if p.theme = some "light" then "000" else username
  let id := if p.theme = some "light" then "adadad" else id
  let div := if p.theme = some "light" then "00000030" else div
  let border := if p.theme = some "light" then "00000030" else border
  let progBg := if p.theme = some "light" then "00000050" else progBg
  let progColor := if p.theme = some "light" then "60a5fa" else progColor
  ⟨bg, title, subTitle, text, username, id, cp, ip, div, border, progBg, progColor⟩

/-! ## Fetched data records -/

structure UserData where
  steamId : String
  personaName : String
  visible : Bool
  avatar : String
  lastLogOff : Option Nat
  createdAt : Option Nat
  countryCode : Option String
  stateCode : Option String
  onlineState : Option String
  location : Option String
deriving DecidableEq

structure GameData where
  totalInitialFormatted : String
  totalFinalFormatted : String
  averageGamePrice : String
  totalPlaytimeHours : String
  averagePlaytime : String
  totalGames : Nat
  playedCount : Nat
  unplayedCount : Nat
  totalPlaytime : Nat
deriving DecidableEq

/-- Result of `getGameData`: either the aggregated record or the
`{ error: 'private games' }` marker object (source line 207). -/
inductive GameRes where
  | ok (d : GameData)
  | err
deriving DecidableEq

/-- Result of `getUserData`: either the profile record or the
`{ error: 'no user' }` marker object (source line 91). -/
inductive UserRes where
  | ok (d : UserData)
  | err
deriving DecidableEq

/-! ## Renderer environment and assets -/

/-- A decoded image; only the dimensions matter (avatar scaling). -/
structure Img where
  width : Nat
  height : Nat
deriving DecidableEq

/-- Availability of each image the renderer loads: `none` means the load
or decode fails (`loadImage` rejects, `getCachedImage` rethrows). -/
structure Assets where
  watermark : Option Img
  locIcon : Option Img
  seenIcon : Option Img
  joinIcon : Option Img
  statsIcon : Option Img
  avatarImg : Option Img
deriving DecidableEq

def Assets.staticsLoaded (a : Assets) : Prop :=
  a.watermark.isSome ∧ a.locIcon.isSome ∧ a.seenIcon.isSome ∧
  a.joinIcon.isSome ∧ a.statsIcon.isSome

instance (a : Assets) : Decidable a.staticsLoaded := by
  unfold Assets.staticsLoaded; infer_instance

/-- External text/format helpers: the font engine's `measureText` and the
formatters imported from `@/utils/utils` (repository code outside `src/`);
their outputs are opaque to every claim. -/
structure RenderEnv where
  measure : String → Nat
  fromNow : Nat → String
  relImprecise : Nat → String
  pricePerHour : String → String → String

/-- JS `s || d` for strings: the empty string is falsy. -/
def jsOrS (s d : String) : String := if s = "" then d else s

/-! ## The draw sequence (source 342-435) -/

/-- Location text: `userData.location || 'Unknown'`, truncated past 22
characters (source 393-395). -/
def locationText (loc : Option String) : String :=
  let l := match loc with
    | some s => jsOrS s "Unknown"
    | none => "Unknown"
  if 22 < l.length then l.take 22 ++ ellipsis else l

/-- `Last seen ...` (source 402): a `0` timestamp is falsy in JS. -/
def lastSeenText (env : RenderEnv) (lastLogOff : Option Nat) : String :=
  "Last seen " ++ match lastLogOff with
    | some t => if t = 0 then "never" else env.fromNow t
    | none => "never"

/-- `Joined ... ago` / `Unknown` (source 410). -/
def createdAtText (env : RenderEnv) (createdAt : Option Nat) : String :=
  match createdAt with
  | some t => if t = 0 then "Unknown" else "Joined " ++ env.relImprecise t ++ " ago"
  | none => "Unknown"

/-- Background, watermark, identity column, dividers and the statistics
header, in source order (lines 348-435). -/
def identityOps (env : RenderEnv) (user : UserData) (pal : Palette) : List DrawOp :=
  [ .fillRect 0 0 705 385 pal.bg,
    .fillText "steeeam.vercel.app" (705 - 155) (385 - 17) "737373" "16px Geist",
    .image (705 - 180) (385 - 32),
    .fillText (renderedUsername env.measure user.personaName) 20 180 pal.username "700 20px Geist",
    .fillText user.steamId 20 195 pal.id "10px Geist",
    .image 20 220,
    .fillText (locationText user.location) 43 232 pal.text "12px Geist",
    .image 20 245,
    .fillText (lastSeenText env user.lastLogOff) 43 257 pal.text "12px Geist",
    .image 20 270,
    .fillText (createdAtText env user.createdAt) 43 283 pal.text "12px Geist",
    .line 200 15 200 (385 - 15) pal.div 1,
    .image 215 20,
    .fillText "Account Statistics" 245 37 pal.title "600 16px Geist",
    .line 215 50 (705 - 15) 50 pal.div 1 ]

/-- The six stat blocks (source 438-489).  `parseInt(n.toString()) = n`
for the counts, so they stay `Nat`. -/
def statOps (env : RenderEnv) (pal : Palette) (gd : GameData) : List DrawOp :=
  [ .fillText "Current Price" 215 80 pal.subTitle "16px Geist",
    .fillText (jsOrS gd.totalFinalFormatted "$0") 215 110 pal.cp "600 26px Geist",
    .fillText "Initial Price" 370 80 pal.subTitle "16px Geist",
    .fillText (jsOrS gd.totalInitialFormatted "$0") 370 110 pal.ip "600 26px Geist",
    .fillText "Total Games" 215 160 pal.subTitle "16px Geist",
    .fillText (toString gd.totalGames) 215 190 pal.text "600 26px Geist",
    .fillText "Avg. Price" 370 160 pal.subTitle "16px Geist",
    .fillText (jsOrS gd.averageGamePrice "$0") 370 190 pal.text "600 26px Geist",
    .fillText "Price Per Hour" 510 160 pal.subTitle "16px Geist",
    .fillText (jsOrS (env.pricePerHour gd.totalFinalFormatted gd.totalPlaytimeHours) "0") 510 190 pal.text "600 26px Geist",
    .fillText "Avg. Playtime" 215 240 pal.subTitle "16px Geist",
    .fillText (jsOrS gd.averagePlaytime "0" ++ "h") 215 270 pal.text "600 26px Geist",
    .fillText "Total Playtime" 370 240 pal.subTitle "16px Geist",
    .fillText (jsOrS gd.totalPlaytimeHours "0" ++ "h") 370 270 pal.text "600 26px Geist" ]

/-- The `{played} / {total} games played {pct}%` line (source 492-510):
skipped entirely when `progressPercent` is the string `"NaN"`
(`isNaN('Infinity')` is false, so the `Infinity` case would still draw). -/
def counterOps (env : RenderEnv) (pal : Palette) (p t : Nat) : List DrawOp :=
  if jsDiv p t = .nan then [] else
    let pStr := toString p
    let tStr := toString t
    let pct := toFixed0 ((jsDiv p t).mulPos 100)
    [ .fillText pStr 215 324 pal.progColor "700 14px Geist",
      .fillText "/" ((env.measure pStr : Int) + 215 + 5) 324 pal.text "14px Geist",
      .fillText tStr ((env.measure pStr : Int) + 215 + 15) 324 pal.progColor "700 14px Geist",
      .fillText "games played" ((env.measure pStr : Int) + (env.measure tStr : Int) + 215 + 20) 324 pal.text "14px Geist",
      .fillText (pct ++ "%") 405 324 pal.text "700 14px Geist" ]

/-- The fill width computed from the `progress` double (source 516):
`Math.floor(barwidth * (progress / 100))` — one binary64 division, one
binary64 multiplication, then an exact floor. -/
def barFillWidthOf (prog : ℚ) : ℤ := ⌊fl ((220 : ℚ) * fl (prog / 100))⌋

/-- The `progress` double (source 548): `(playedCount / gameCount) * 100`,
both operations rounded to binary64; meaningful for `0 < t`. -/
def progressVal (p t : Nat) : ℚ := fl (fl ((p : ℚ) / (t : ℚ)) * 100)

/-- `createRoundedProgressBar` (source 512-519, invoked at 546-552): an
early return on `NaN` skips background and fill; otherwise the background
bar is 220 wide and the fill is `Math.floor(220 * (progress / 100))`
evaluated in binary64. -/
def barOps (pal : Palette) (p t : Nat) : List DrawOp :=
  match (jsDiv p t).mulPos 100 with
  | .nan => []
  | .inf =>
    [ .roundedRect 215 330 (.val 220) 12 6 pal.progBg,
      .roundedRect 215 330 .inf 12 6 pal.progColor ]
  | .val prog =>
    [ .roundedRect 215 330 (.val 220) 12 6 pal.progBg,
      .roundedRect 215 330 (.val ((barFillWidthOf prog : ℤ) : ℚ)) 12 6 pal.progColor ]

/-- The statistics panel: stat blocks, counter line and progress bar when
the library data is present, the `Private Games List` message on the
`{ error }` marker (source 437-557). -/
def gameOps (env : RenderEnv) (pal : Palette) (g : GameRes) : List DrawOp :=
  match g with
  | .ok gd =>
    statOps env pal gd ++ counterOps env pal gd.playedCount gd.totalGames
      ++ barOps pal gd.playedCount gd.totalGames
  | .err => [ .fillText "Private Games List" 390 200 pal.subTitle "16px Geist" ]

/-- `drawCenteredRoundedImage` (source 560-590): drawn only when
`userData.avatar` is truthy; a failing avatar load is caught and the draw
step skipped.  A zero-dimension image (division by zero in the scale
factor) is outside the modelled inputs. -/
def avatarOps (user : UserData) (a : Assets) : List DrawOp :=
  if user.avatar = "" then [] else
    match a.avatarImg with
    | some img =>
      let scale : ℚ := min ((130 : ℚ) / (img.width : ℚ)) ((130 : ℚ) / (img.height : ℚ))
      [ .avatarImage 35 20 ((img.width : ℚ) * scale) ((img.height : ℚ) * scale) ]
    | none => []

/-- Border stroke (source 593-597): drawn unless `hide_border === 'true'`. -/
def borderOps (pal : Palette) (hide_border : Option String) (border_width : Option String) : List DrawOp :=
  if hide_border = some "true" then [] else
    [ .borderRect 0 0 705 385 pal.border (borderLineWidth border_width) ]

/-- `createFullCanvas` (source 299-601).  Each static image is fetched via
`getCachedImage`, which rethrows a load failure; the failure aborts the
whole renderer.  In the source each load sits immediately before its draw
call, and a failure discards the canvas, so hoisting the five load checks
ahead of the draw list leaves both the failure condition and the produced
operation list unchanged. -/
def createFullCanvas (env : RenderEnv) (user : UserData) (game : GameRes)
    (p : Params) (a : Assets) : Except Unit (List DrawOp) :=
  let pal := resolveColors p
  match a.watermark with
  | none => .error ()
  | some _ =>
    match a.locIcon with
    | none => .error ()
    | some _ =>
      match a.seenIcon with
      | none => .error ()
      | some _ =>
        match a.joinIcon with
        | none => .error ()
        | some _ =>
          match a.statsIcon with
          | none => .error ()
          | some _ =>
            .ok (identityOps env user pal ++ gameOps env pal game
                  ++ avatarOps user a ++ borderOps pal p.hide_border p.border_width)

/-- Membership of a draw op in a renderer result; an aborted render has no
operations. -/
def opsMem (op : DrawOp) (r : Except Unit (List DrawOp)) : Prop :=
  match r with
  | .ok l => op ∈ l
  | .error _ => False

/-! ## HTTP handler tail (source 271-296): the fetched results are passed
to the renderer; a thrown error anywhere yields the generic 500 JSON. -/

inductive Response where
  | image (ops : List DrawOp)
  | errJson
deriving DecidableEq

def Response.is200 : Response → Bool
  | .image _ => true
  | .errJson => false

def handler (env : RenderEnv) (user : UserData) (game : GameRes)
    (p : Params) (a : Assets) : Response :=
  match createFullCanvas env user game p a with
  | .ok ops => .image ops
  | .error _ => .errJson

/-! ## The upstream summary shapes (from `steamapi` / `steamid-resolver`) -/

structure Summary where
  nickname : String
  visible : Bool
  avatarLarge : String
  lastLogOffTimestamp : Option Nat
  createdTimestamp : Option Nat
  countryCode : Option String
  stateCode : Option String
deriving DecidableEq

/-- `steamID64ToFullInfo` result; `onlineState` / `location` are arrays.
The `allSettled` fallback `{}` is the record with both fields `none`. -/
structure SidrInfo where
  onlineState : Option (List String)
  location : Option (List String)
deriving DecidableEq

/-- `userData` construction (source 72-83).  `x ? x[0] : fallback` reads
the head of a present array; a present empty array gives `undefined`
(modelled `none` for `onlineState`, and the `|| 'Unknown'` in the renderer
receives `none`). -/
def mkUserData (steamId : String) (s : Summary) (si : SidrInfo) : UserData :=
  { steamId := steamId
    personaName := s.nickname
    visible := s.visible
    avatar := s.avatarLarge
    lastLogOff := s.lastLogOffTimestamp
    createdAt := s.createdTimestamp
    countryCode := s.countryCode
    stateCode := s.stateCode
    onlineState := match si.onlineState with
      | some (x :: _) => some x
      | some [] => none
      | none => none
    location := match si.location with
      | some (x :: _) => some x
      | some [] => none
      | none => some "Unknown" }

/-! ## Owned-games aggregation loop (source 131-145) -/

structure GameItem where
  gameId : Nat
  minutes : Nat
deriving DecidableEq

structure PlayAcc where
  gameIds : List Nat
  playtime : List Nat
  playedCount : Nat
  unplayedCount : Nat
  totalPlaytime : Nat
deriving DecidableEq

/-- One iteration of the `for (const item of userGames)` loop. -/
def playStep (acc : PlayAcc) (item : GameItem) : PlayAcc :=
  let acc := { acc with gameIds := acc.gameIds ++ [item.gameId] }
  let acc :=
    if 0 < item.minutes then
      { acc with playedCount := acc.playedCount + 1
                 playtime := acc.playtime ++ [item.minutes]
                 totalPlaytime := acc.totalPlaytime + item.minutes }
    else acc
  if item.minutes = 0 then { acc with unplayedCount := acc.unplayedCount + 1 } else acc

def playFold (games : List GameItem) : PlayAcc :=
  games.foldl playStep ⟨[], [], 0, 0, 0⟩

/-- App-id chunking (source 148-152): slices of at most 200. -/
def chunk200 : List Nat → List (List Nat)
  | [] => []
  | x :: xs => (x :: xs).take 200 :: chunk200 ((x :: xs).drop 200)
termination_by l => l.length
decreasing_by
  simp only [List.length_drop, List.length_cons]
  omega

/-- `price_overview` of one app (`final || 0`, `initial || 0` folded in). -/
structure PriceOv where
  finalP : Nat
  initialP : Nat
deriving DecidableEq

/-- Per-chunk price accumulation (source 155-185).  Each chunk's request
either fails (`none` — caught, contributing nothing) or yields one
optional `price_overview` per app; only entries with a positive initial
price are accumulated. -/
def priceAccum (fetch : List Nat → Option (List (Option PriceOv)))
    (chunks : List (List Nat)) : List Nat × Nat × Nat :=
  chunks.foldl
    (fun acc ch =>
      match fetch ch with
      | none => acc
      | some entries =>
        entries.foldl
          (fun acc e =>
            match e with
            | some pv =>
              if 0 < pv.initialP then
                (acc.1 ++ [pv.initialP], acc.2.1 + pv.initialP, acc.2.2 + pv.finalP)
              else acc
            | none => acc)
          acc)
    ([], 0, 0)

/-! ## The module-level caches (source 10-11) as an explicit store.

The single `Map` holds four key shapes (`user_`, `steamid_`,
`steamid_meta_`, `games_`); they are modelled as four typed association
lists, prepending on `set` so that `lookup` sees the newest binding. -/

structure Store where
  steamid : List (String × String)
  steamidMeta : List (String × Nat)
  user : List (String × (UserData × Nat))
  games : List (String × (GameData × Nat))
deriving DecidableEq

def Store.empty : Store := ⟨[], [], [], []⟩

/-- Observable upstream activity of one call. -/
inductive Call where
  | resolve (uid : String)
  | summary (steamId : String)
  | sidr (steamId : String)
  | owned (steamId : String)
  | priceChunk (chunk : List Nat)
deriving DecidableEq

/-- The network: `resolveVanityUrl` and `getUserOwnedGames` can reject
(`Except.error`), `getUserSummary` / `steamID64ToFullInfo` sit under
`Promise.allSettled` so a failure is a `none` / default record, a pricing
request failure is `none`.  The `fmt*` fields are the `Intl` currency
formatter and the `utils` helpers (repository code outside `src/`). -/
structure FetchEnv where
  resolve : String → Except Unit String
  summary : String → Option Summary
  sidrInfo : String → SidrInfo
  owned : String → Except Unit (List GameItem)
  prices : String → List Nat → Option (List (Option PriceOv))
  fmtUSD : ℚ → String
  getAverage : List Nat → ℚ
  m2hCompact : Nat → String
  m2hPrecise : ℚ → String

structure UserOut where
  result : UserRes
  store : Store
  calls : List Call
deriving DecidableEq

/-- Summary + sidr fan-out (source 57-88), after a steam id is at hand:
both lookups always run; a missing summary throws into the catch, with any
earlier `steamid_` cache writes retained. -/
def userSummaryStep (env : FetchEnv) (st : Store) (uid : String) (now : Nat)
    (sid : String) (calls : List Call) : UserOut :=
  let calls := calls ++ [.summary sid, .sidr sid]
  match env.summary sid with
  | none => ⟨.err, st, calls⟩
  | some s =>
    let d := mkUserData sid s (env.sidrInfo sid)
    ⟨.ok d, { st with user := ("user_" ++ uid, (d, now)) :: st.user }, calls⟩

/-- The fetch body of `getUserData` (source 46-95): re-resolve the vanity
id unless both `steamid_` and a 7-day-fresh `steamid_meta_` entry exist; a
rejected resolution is caught and becomes the error marker. -/
def getUserDataFetch (env : FetchEnv) (st : Store) (uid : String) (now : Nat) : UserOut :=
  match st.steamid.lookup ("steamid_" ++ uid), st.steamidMeta.lookup ("steamid_meta_" ++ uid) with
  | some sid, some ts =>
    if isCacheValid now ts STEAMID_CACHE_TTL then
      userSummaryStep env st uid now sid []
    else
      match env.resolve uid with
      | .error _ => ⟨.err, st, [.resolve uid]⟩
      | .ok sid2 =>
        userSummaryStep env
          { st with steamid := ("steamid_" ++ uid, sid2) :: st.steamid
                    steamidMeta := ("steamid_meta_" ++ uid, now) :: st.steamidMeta }
          uid now sid2 [.resolve uid]
  | _, _ =>
    match env.resolve uid with
    | .error _ => ⟨.err, st, [.resolve uid]⟩
    | .ok sid2 =>
      userSummaryStep env
        { st with steamid := ("steamid_" ++ uid, sid2) :: st.steamid
                  steamidMeta := ("steamid_meta_" ++ uid, now) :: st.steamidMeta }
        uid now sid2 [.resolve uid]

/-- `getUserData` (source 33-99), sequential view: the 1-hour `user_`
cache is consulted first; request deduplication is modelled separately
(`arrive` / `settle`). -/
def getUserData (env : FetchEnv) (st : Store) (uid : String) (now : Nat) : UserOut :=
  match st.user.lookup ("user_" ++ uid) with
  | some (d, ts) =>
    if isCacheValid now ts CACHE_TTL then ⟨.ok d, st, []⟩
    else getUserDataFetch env st uid now
  | none => getUserDataFetch env st uid now

structure GameOut where
  result : GameRes
  store : Store
  calls : List Call
deriving DecidableEq

/-- The fetch body of `getGameData` (source 114-211).  Note the steam-id
step (source 116-120): the cached `steamid_` value is used whenever
present, with no TTL check and no `steamid_meta_` write. -/
def getGameDataFetch (env : FetchEnv) (st : Store) (uid cc : String) (now : Nat) : GameOut :=
  let idStep : Except Unit String × Store × List Call :=
    match st.steamid.lookup ("steamid_" ++ uid) with
    | some sid => (.ok sid, st, [])
    | none =>
      match env.resolve uid with
      | .error _ => (.error (), st, [.resolve uid])
      | .ok sid2 =>
        (.ok sid2, { st with steamid := ("steamid_" ++ uid, sid2) :: st.steamid }, [.resolve uid])
  match idStep with
  | (.error _, st1, calls1) => ⟨.err, st1, calls1⟩
  | (.ok sid, st1, calls1) =>
    let calls := calls1 ++ [.owned sid]
    match env.owned sid with
    | .error _ => ⟨.err, st1, calls⟩
    | .ok games =>
      let acc := playFold games
      let chunks := chunk200 acc.gameIds
      let pr := priceAccum (env.prices cc) chunks
      let calls := calls ++ chunks.map (.priceChunk ·)
      let gd : GameData :=
        { totalInitialFormatted := env.fmtUSD ((pr.2.1 : ℚ) / 100)
          totalFinalFormatted := env.fmtUSD ((pr.2.2 : ℚ) / 100)
          averageGamePrice :=
            if 0 < pr.1.length then env.fmtUSD (env.getAverage pr.1 / 100) else "$0.00"
          totalPlaytimeHours := env.m2hCompact acc.totalPlaytime
          averagePlaytime :=
            if 0 < acc.playtime.length then env.m2hPrecise (env.getAverage acc.playtime) else "0"
          totalGames := games.length
          playedCount := acc.playedCount
          unplayedCount := acc.unplayedCount
          totalPlaytime := acc.totalPlaytime }
      ⟨.ok gd, { st1 with games := ("games_" ++ uid ++ "_" ++ cc, (gd, now)) :: st1.games }, calls⟩

/-- `getGameData` (source 101-215), sequential view: 6-hour `games_`
cache keyed by uid and country code. -/
def getGameData (env : FetchEnv) (st : Store) (uid cc : String) (now : Nat) : GameOut :=
  match st.games.lookup ("games_" ++ uid ++ "_" ++ cc) with
  | some (d, ts) =>
    if isCacheValid now ts GAME_DATA_CACHE_TTL then ⟨.ok d, st, []⟩
    else getGameDataFetch env st uid cc now
  | none => getGameDataFetch env st uid cc now

/-! ## Image cache (source 218-237) -/

structure ImgOut where
  result : Except Unit Img
  entry : Option (Img × Nat)
  didLoad : Bool

def imgTTL (isAvatar : Bool) : Nat := if isAvatar then AVATAR_CACHE_TTL else CACHE_TTL

/-- `getCachedImage`: a valid cached decode is returned without loading;
otherwise `loadImage` runs, its failure rethrown (`Except.error`). -/
def getCachedImageM (loadResult : Option Img) (cached : Option (Img × Nat))
    (isAvatar : Bool) (now : Nat) : ImgOut :=
  match cached with
  | some (img, ts) =>
    if isCacheValid now ts (imgTTL isAvatar) then ⟨.ok img, cached, false⟩
    else
      match loadResult with
      | some fresh => ⟨.ok fresh, some (fresh, now), true⟩
      | none => ⟨.error (), cached, true⟩
  | none =>
    match loadResult with
    | some fresh => ⟨.ok fresh, some (fresh, now), true⟩
    | none => ⟨.error (), cached, true⟩

/-! ## Request deduplication (source 36-44, 92-97, 104-112, 208-213)

The event-loop view for one cache key: `cache.get`/`isCacheValid`, the
`pendingRequests.has` test and `pendingRequests.set` run in one
synchronous block (no `await` separates them), so an arrival is a single
atomic step.  A fetch settling (the promise resolving or rejecting,
running the `finally`) is the other atomic step. -/

inductive ArrivalRes where
  | fromCache
  | joined (fid : Nat)
deriving DecidableEq

structure DState where
  cacheValid : Bool
  pending : Option Nat
  next : Nat
  startedCount : Nat
deriving DecidableEq

/-- One caller entering `getUserData`/`getGameData` for the key: serve the
valid cache, else join the in-flight promise, else start fetch `next`. -/
def arrive (s : DState) : ArrivalRes × DState :=
  if s.cacheValid then (.fromCache, s)
  else
    match s.pending with
    | some f => (.joined f, s)
    | none =>
      (.joined s.next,
       { s with pending := some s.next, next := s.next + 1,
                startedCount := s.startedCount + 1 })

/-- The in-flight fetch settling: on success the result is cached, and
the `finally` clears the pending marker in every case. -/
def settle (success : Bool) (s : DState) : DState :=
  { s with pending := none, cacheValid := s.cacheValid || success }

def runArrivals : Nat → DState → List ArrivalRes × DState
  | 0, s => ([], s)
  | n + 1, s =>
    let (r, s1) := arrive s
    let (rs, s2) := runArrivals n s1
    (r :: rs, s2)

/-! ## Concrete fixtures used by witnesses and counterexamples -/

def env0 : RenderEnv :=
  { measure := fun s => s.length
    fromNow := fun _ => "2 days ago"
    relImprecise := fun _ => "a year"
    pricePerHour := fun _ _ => "$1.00/h" }

def user0 : UserData :=
  { steamId := "76561198000000001"
    personaName := "Alice"
    visible := true
    avatar := "https://example.invalid/avatar.png"
    lastLogOff := some 1700000000
    createdAt := some 1500000000
    countryCode := some "US"
    stateCode := none
    onlineState := some "Online"
    location := some "Earth" }

def gd0 : GameData :=
  { totalInitialFormatted := "$20.00"
    totalFinalFormatted := "$10.00"
    averageGamePrice := "$5.00"
    totalPlaytimeHours := "12"
    averagePlaytime := "6"
    totalGames := 4
    playedCount := 2
    unplayedCount := 2
    totalPlaytime := 720 }

def img0 : Img := ⟨32, 32⟩

def assets0 : Assets := ⟨some img0, some img0, some img0, some img0, some img0, some img0⟩

def fenv0 : FetchEnv :=
  { resolve := fun _ => .ok "76561198000000001"
    summary := fun _ => none
    sidrInfo := fun _ => ⟨none, none⟩
    owned := fun _ => .ok []
    prices := fun _ _ => none
    fmtUSD := fun _ => "$0.00"
    getAverage := fun _ => 0
    m2hCompact := fun _ => "0"
    m2hPrecise := fun _ => "0" }

/-! ## C8: the owned-games partition -/

theorem playStep_playedCount (acc : PlayAcc) (g : GameItem) :
    (playStep acc g).playedCount
      = acc.playedCount + (if 0 < g.minutes then 1 else 0) := by
  by_cases h : 0 < g.minutes
  · have h0 : ¬g.minutes = 0 := by omega
    simp [playStep, h, h0]
  · have h0 : g.minutes = 0 := by omega
    simp [playStep, h, h0]

theorem playStep_unplayedCount (acc : PlayAcc) (g : GameItem) :
    (playStep acc g).unplayedCount
      = acc.unplayedCount + (if g.minutes = 0 then 1 else 0) := by
  by_cases h : g.minutes = 0
  · simp [playStep, h]
  · have h1 : 0 < g.minutes := by omega
    simp [playStep, h, h1]

theorem playStep_totalPlaytime (acc : PlayAcc) (g : GameItem) :
    (playStep acc g).totalPlaytime
      = acc.totalPlaytime + (if 0 < g.minutes then g.minutes else 0) := by
  by_cases h : 0 < g.minutes
  · have h0 : ¬g.minutes = 0 := by omega
    simp [playStep, h, h0]
  · have h0 : g.minutes = 0 := by omega
    simp [playStep, h, h0]

theorem playFoldGo_playedCount (games : List GameItem) (acc : PlayAcc) :
    (games.foldl playStep acc).playedCount
      = acc.playedCount + (games.filter (fun g => 0 < g.minutes)).length := by
  induction games generalizing acc with
  | nil => simp
  | cons g gs ih =>
    simp only [List.foldl_cons, ih, playStep_playedCount, List.filter_cons]
    by_cases h : 0 < g.minutes <;> (simp [h]; try omega)

theorem playFoldGo_unplayedCount (games : List GameItem) (acc : PlayAcc) :
    (games.foldl playStep acc).unplayedCount
      = acc.unplayedCount + (games.filter (fun g => g.minutes = 0)).length := by
  induction games generalizing acc with
  | nil => simp
  | cons g gs ih =>
    simp only [List.foldl_cons, ih, playStep_unplayedCount, List.filter_cons]
    by_cases h : g.minutes = 0 <;> (simp [h]; try omega)

theorem playFoldGo_totalPlaytime (games : List GameItem) (acc : PlayAcc) :
    (games.foldl playStep acc).totalPlaytime
      = acc.totalPlaytime + ((games.filter (fun g => 0 < g.minutes)).map (fun g => g.minutes)).sum := by
  induction games generalizing acc with
  | nil => simp
  | cons g gs ih =>
    simp only [List.foldl_cons, ih, playStep_totalPlaytime, List.filter_cons]
    by_cases h : 0 < g.minutes <;> (simp [h]; try omega)

theorem filter_pos_add_filter_zero (games : List GameItem) :
    (games.filter (fun g => 0 < g.minutes)).length
      + (games.filter (fun g => g.minutes = 0)).length = games.length := by
  induction games with
  | nil => simp
  | cons g gs ih =>
    simp only [List.filter_cons]
    by_cases h : 0 < g.minutes
    · have h0 : ¬g.minutes = 0 := by omega
      simp [h, h0]; omega
    · have h0 : g.minutes = 0 := by omega
      simp [h, h0]; omega

/-- C8: the aggregation loop partitions the owned games — `playedCount`
counts exactly the games with positive playtime minutes, `unplayedCount`
counts the remaining (zero-minute) games, the two counts sum to the total
game count, and `totalPlaytime` is the sum of minutes over played games. -/
theorem games_partitioned (games : List GameItem) :
    (playFold games).playedCount = (games.filter (fun g => 0 < g.minutes)).length
  ∧ (playFold games).unplayedCount = (games.filter (fun g => g.minutes = 0)).length
  ∧ (playFold games).playedCount + (playFold games).unplayedCount = games.length
  ∧ (playFold games).totalPlaytime
      = ((games.filter (fun g => 0 < g.minutes)).map (fun g => g.minutes)).sum := by
  refine ⟨?_, ?_, ?_, ?_⟩
  · simpa using playFoldGo_playedCount games ⟨[], [], 0, 0, 0⟩
  · simpa using playFoldGo_unplayedCount games ⟨[], [], 0, 0, 0⟩
  · have h1 := playFoldGo_playedCount games ⟨[], [], 0, 0, 0⟩
    have h2 := playFoldGo_unplayedCount games ⟨[], [], 0, 0, 0⟩
    have h3 := filter_pos_add_filter_zero games
    simp only [playFold] at *
    omega
  · simpa using playFoldGo_totalPlaytime games ⟨[], [], 0, 0, 0⟩

/-! ## C9: request deduplication -/

theorem runArrivals_joined (n : Nat) (s : DState) (f : Nat)
    (h0 : s.cacheValid = false) (hp : s.pending = some f) :
    runArrivals n s = (List.replicate n (.joined f), s) := by
  induction n with
  | zero => simp [runArrivals]
  | succ m ih =>
    simp [runArrivals, arrive, h0, hp, ih, List.replicate_succ]

/-- C9: for concurrent requests on one cache key issued while no valid
cache entry exists and before the first fetch settles, only the first
arrival starts an upstream fetch (`startedCount` rises by exactly one),
every arrival joins that same fetch, and settling — success or failure —
clears the in-flight marker. -/
theorem dedup_single_fetch (s : DState) (n : Nat)
    (h0 : s.cacheValid = false) (hp : s.pending = none) (hn : 1 ≤ n) :
    (runArrivals n s).1 = List.replicate n (.joined s.next)
  ∧ (runArrivals n s).2.startedCount = s.startedCount + 1
  ∧ ∀ (b : Bool) (t : DState), (settle b t).pending = none := by
  obtain ⟨m, rfl⟩ : ∃ m, n = m + 1 := ⟨n - 1, by omega⟩
  have harr : arrive s =
      (.joined s.next,
        { s with pending := some s.next, next := s.next + 1,
                 startedCount := s.startedCount + 1 }) := by
    simp [arrive, h0, hp]
  have hrun := runArrivals_joined m
    { s with pending := some s.next, next := s.next + 1, startedCount := s.startedCount + 1 }
    s.next h0 rfl
  refine ⟨?_, ?_, fun b t => rfl⟩
  · simp [runArrivals, harr, hrun, List.replicate_succ]
  · simp [runArrivals, harr, hrun]

/-- Concrete run for `dedup_single_fetch`: three concurrent arrivals all
join fetch `0` and exactly one upstream fetch is started. -/
theorem dedup_single_fetch_witness :
    (runArrivals 3 ⟨false, none, 0, 0⟩).1 = List.replicate 3 (.joined 0) :=
  (dedup_single_fetch ⟨false, none, 0, 0⟩ 3 rfl rfl (by decide)).1

/-! ## Classifying draw operations for absence arguments -/

/-- A `fillText` whose baseline sits at `y` (the y-coordinate is matched
first so the test reduces even when the x-coordinate is symbolic). -/
def textAtY (y : Int) : DrawOp → Bool
  | .fillText _ _ y2 _ _ => y2 == y
  | _ => false

/-- A `fillText` at exactly `(x, y)`, y-coordinate matched first. -/
def textAtXY (x y : Int) : DrawOp → Bool
  | .fillText _ x2 y2 _ _ => y2 == y && x2 == x
  | _ => false

/-- No op in the identity column is an avatar draw, a progress-bar
rectangle, the `(215, 80)` stat header or a counter-line text (y 324). -/
theorem identityOps_classes (env : RenderEnv) (u : UserData) (pal : Palette) :
    (identityOps env u pal).all
      (fun op => !op.isAvatarImage && !op.isRoundedRect && !textAtXY 215 80 op && !textAtY 324 op) = true := rfl

theorem statOps_classes (env : RenderEnv) (pal : Palette) (gd : GameData) :
    (statOps env pal gd).all
      (fun op => !op.isAvatarImage && !op.isRoundedRect && !textAtY 324 op) = true := rfl

theorem counterOps_classes (env : RenderEnv) (pal : Palette) (p t : Nat) :
    (counterOps env pal p t).all
      (fun op => !op.isAvatarImage && !op.isRoundedRect && !textAtXY 215 80 op) = true := by
  unfold counterOps
  split
  · rfl
  · rfl

theorem avatarOps_classes (u : UserData) (a : Assets) :
    (avatarOps u a).all
      (fun op => !op.isRoundedRect && !textAtXY 215 80 op && !textAtY 324 op) = true := by
  unfold avatarOps
  split
  · rfl
  · split <;> rfl

theorem borderOps_classes (pal : Palette) (hb bw : Option String) :
    (borderOps pal hb bw).all
      (fun op => !op.isAvatarImage && !op.isRoundedRect && !textAtXY 215 80 op && !textAtY 324 op) = true := by
  unfold borderOps
  split <;> rfl

theorem gameOpsErr_classes (env : RenderEnv) (pal : Palette) :
    (gameOps env pal .err).all
      (fun op => !op.isAvatarImage && !op.isRoundedRect && !textAtXY 215 80 op && !textAtY 324 op) = true := rfl

/-- An avatar load failure silences the avatar draw step. -/
theorem avatarOps_none (u : UserData) (a : Assets) (hav : a.avatarImg = none) :
    avatarOps u a = [] := by
  unfold avatarOps
  split
  · rfl
  · rw [hav]

/-- The renderer succeeds exactly on the five static assets, producing the
full draw list. -/
theorem createFullCanvas_ok (env : RenderEnv) (u : UserData) (g : GameRes)
    (p : Params) (a : Assets) (hs : a.staticsLoaded) :
    createFullCanvas env u g p a =
      .ok (identityOps env u (resolveColors p) ++ gameOps env (resolveColors p) g
            ++ avatarOps u a ++ borderOps (resolveColors p) p.hide_border p.border_width) := by
  obtain ⟨h1, h2, h3, h4, h5⟩ := hs
  obtain ⟨w1, hw1⟩ := Option.isSome_iff_exists.mp h1
  obtain ⟨w2, hw2⟩ := Option.isSome_iff_exists.mp h2
  obtain ⟨w3, hw3⟩ := Option.isSome_iff_exists.mp h3
  obtain ⟨w4, hw4⟩ := Option.isSome_iff_exists.mp h4
  obtain ⟨w5, hw5⟩ := Option.isSome_iff_exists.mp h5
  simp [createFullCanvas, hw1, hw2, hw3, hw4, hw5]

/-! ## C1: the theme override -/

/-- The renderer depends on the query parameters only through the resolved
palette, `hide_border` and `border_width`. -/
theorem createFullCanvas_params_congr (env : RenderEnv) (u : UserData) (g : GameRes)
    (a : Assets) (p q : Params) (hpal : resolveColors p = resolveColors q)
    (hhb : p.hide_border = q.hide_border) (hbw : p.border_width = q.border_width) :
    createFullCanvas env u g p a = createFullCanvas env u g q a := by
  simp only [createFullCanvas, hpal, hhb, hbw]

/-- C1 (counterexample): with `theme=dark` also supplying `cp_color`
changes the rendered output, so the theme does not overwrite every
individually supplied color argument — `cp_color` (and likewise
`ip_color`) still takes effect. -/
theorem theme_cp_color_still_applies :
    createFullCanvas env0 user0 (.ok gd0)
        { Params.none0 with theme := some "dark", cp_color := some "123456" } assets0
      ≠ createFullCanvas env0 user0 (.ok gd0)
        { Params.none0 with theme := some "dark" } assets0 := by decide

/-- C1 (amended): when the theme is `dark` or `light`, each of the ten
themed color arguments (`bg_color`, `title_color`, `sub_title_color`,
`text_color`, `username_color`, `id_color`, `div_color`, `border_color`,
`progbar_bg`, `progbar_color`) is overwritten after defaults and before
any drawing, so supplying any of them leaves the output identical to the
output with that argument absent; `cp_color` and `ip_color` are the two
exceptions the theme never overwrites. -/
theorem theme_overrides_themed_colors (env : RenderEnv) (u : UserData) (g : GameRes)
    (a : Assets) (p : Params) (h : p.theme = some "dark" ∨ p.theme = some "light") :
    (∀ v, createFullCanvas env u g { p with bg_color := some v } a
        = createFullCanvas env u g { p with bg_color := none } a)
  ∧ (∀ v, createFullCanvas env u g { p with title_color := some v } a
        = createFullCanvas env u g { p with title_color := none } a)
  ∧ (∀ v, createFullCanvas env u g { p with sub_title_color := some v } a
        = createFullCanvas env u g { p with sub_title_color := none } a)
  ∧ (∀ v, createFullCanvas env u g { p with text_color := some v } a
        = createFullCanvas env u g { p with text_color := none } a)
  ∧ (∀ v, createFullCanvas env u g { p with username_color := some v } a
        = createFullCanvas env u g { p with username_color := none } a)
  ∧ (∀ v, createFullCanvas env u g { p with id_color := some v } a
        = createFullCanvas env u g { p with id_color := none } a)
  ∧ (∀ v, createFullCanvas env u g { p with div_color := some v } a
        = createFullCanvas env u g { p with div_color := none } a)
  ∧ (∀ v, createFullCanvas env u g { p with border_color := some v } a
        = createFullCanvas env u g { p with border_color := none } a)
  ∧ (∀ v, createFullCanvas env u g { p with progbar_bg := some v } a
        = createFullCanvas env u g { p with progbar_bg := none } a)
  ∧ (∀ v, createFullCanvas env u g { p with progbar_color := some v } a
        = createFullCanvas env u g { p with progbar_color := none } a) := by
  refine ⟨fun v => ?_, fun v => ?_, fun v => ?_, fun v => ?_, fun v => ?_,
          fun v => ?_, fun v => ?_, fun v => ?_, fun v => ?_, fun v => ?_⟩ <;>
    refine createFullCanvas_params_congr env u g a _ _ ?_ rfl rfl <;>
    rcases h with h | h <;>
    simp [resolveColors, h]

/-- Concrete run of `theme_overrides_themed_colors`: under `theme=dark`,
`bg_color=ffffff` renders identically to no `bg_color` at all. -/
theorem theme_overrides_themed_colors_witness :
    createFullCanvas env0 user0 (.ok gd0)
        { Params.none0 with theme := some "dark", bg_color := some "ffffff" } assets0
      = createFullCanvas env0 user0 (.ok gd0)
        { Params.none0 with theme := some "dark", bg_color := none } assets0 :=
  (theme_overrides_themed_colors env0 user0 (.ok gd0) assets0
    { Params.none0 with theme := some "dark" } (Or.inl rfl)).1 "ffffff"

/-! ## C2: asset load failures -/

/-- C2 (counterexample): a failing static image (here the watermark) is
not recovered — `getCachedImage` rethrows, no catch surrounds the static
draws, and the request ends in the 500 error response, not a 200 image. -/
theorem static_asset_failure_is_500 :
    (handler env0 user0 (.ok gd0) Params.none0
        { assets0 with watermark := none }).is200 = false := by decide

/-- C2 (amended): only the avatar enjoys local recovery — when the avatar
image fails to load the renderer skips just that draw step and the request
still completes with a 200 image response; a failure of any static image
(the watermark or any of the four icons) aborts the renderer and the
handler answers with the 500 error JSON instead. -/
theorem asset_failure_handling (env : RenderEnv) (u : UserData) (g : GameRes)
    (p : Params) (a : Assets) (hs : a.staticsLoaded) (hav : a.avatarImg = none) :
    (handler env u g p a).is200 = true
  ∧ (∀ op, opsMem op (createFullCanvas env u g p a) → op.isAvatarImage = false)
  ∧ (∀ b : Assets, ¬ b.staticsLoaded → handler env u g p b = .errJson) := by
  have hok := createFullCanvas_ok env u g p a hs
  refine ⟨by simp [handler, hok, Response.is200], ?_, ?_⟩
  · intro op hop
    rw [hok] at hop
    simp only [opsMem, List.mem_append] at hop
    rcases hop with ((hop | hop) | hop) | hop
    · have := List.all_eq_true.mp (identityOps_classes env u (resolveColors p)) op hop
      simp at this
      tauto
    · cases g with
      | ok gd =>
        simp only [gameOps, List.mem_append] at hop
        rcases hop with (hop | hop) | hop
        · have := List.all_eq_true.mp (statOps_classes env (resolveColors p) gd) op hop
          simp at this
          tauto
        · have := List.all_eq_true.mp
            (counterOps_classes env (resolveColors p) gd.playedCount gd.totalGames) op hop
          simp at this
          tauto
        · unfold barOps at hop
          rcases hmp : JsNum.mulPos (jsDiv gd.playedCount gd.totalGames) 100 with _ | _ | q <;>
            rw [hmp] at hop <;> simp at hop <;>
            rcases hop with rfl | rfl <;> rfl
      | err =>
        have := List.all_eq_true.mp (gameOpsErr_classes env (resolveColors p)) op hop
        simp at this
        tauto
    · rw [avatarOps_none u a hav] at hop
      simp at hop
    · have := List.all_eq_true.mp
        (borderOps_classes (resolveColors p) p.hide_border p.border_width) op hop
      simp at this
      tauto
  · intro b hb
    rcases hw : b.watermark with _ | w
    · simp [handler, createFullCanvas, hw]
    · rcases hl : b.locIcon with _ | l
      · simp [handler, createFullCanvas, hw, hl]
      · rcases hsn : b.seenIcon with _ | sn
        · simp [handler, createFullCanvas, hw, hl, hsn]
        · rcases hj : b.joinIcon with _ | j
          · simp [handler, createFullCanvas, hw, hl, hsn, hj]
          · rcases hsi : b.statsIcon with _ | si
            · simp [handler, createFullCanvas, hw, hl, hsn, hj, hsi]
            · exact absurd ⟨by simp [hw], by simp [hl], by simp [hsn],
                by simp [hj], by simp [hsi]⟩ hb

/-- Concrete run of `asset_failure_handling`: all static assets decode,
the avatar fails, and the request still answers 200. -/
theorem asset_failure_handling_witness :
    (handler env0 user0 (.ok gd0) Params.none0
        { assets0 with avatarImg := none }).is200 = true :=
  (asset_failure_handling env0 user0 (.ok gd0) Params.none0
    { assets0 with avatarImg := none } (by decide) rfl).1

/-! ## C3: the restricted-library outcome -/

/-- In the restricted branch the renderer emits no progress-bar rectangle
and no stat-block header at `(215, 80)`. -/
theorem errRender_no_stats (renv : RenderEnv) (u : UserData) (p : Params) (a : Assets)
    (hs : a.staticsLoaded) :
    ∀ op, opsMem op (createFullCanvas renv u .err p a) →
      op.isRoundedRect = false ∧ textAtXY 215 80 op = false := by
  intro op hop
  rw [createFullCanvas_ok renv u .err p a hs] at hop
  simp only [opsMem, List.mem_append] at hop
  rcases hop with ((hop | hop) | hop) | hop
  · have := List.all_eq_true.mp (identityOps_classes renv u (resolveColors p)) op hop
    simp at this
    tauto
  · have := List.all_eq_true.mp (gameOpsErr_classes renv (resolveColors p)) op hop
    simp at this
    tauto
  · have := List.all_eq_true.mp (avatarOps_classes u a) op hop
    simp at this
    tauto
  · have := List.all_eq_true.mp
      (borderOps_classes (resolveColors p) p.hide_border p.border_width) op hop
    simp at this
    tauto

/-- C3: when the owned-games fetch fails, `getGameData` resolves (it does
not throw) to the `{ error: 'private games' }` marker; a transient
pricing-chunk failure never produces that marker (whatever the chunk
responses, a successful owned-games fetch yields data); and on the marker
the renderer draws the `Private Games List` message and none of the stat
blocks or the progress bar. -/
theorem restricted_outcome (env : FetchEnv) (st : Store) (uid cc : String) (now : Nat)
    (hmiss : st.games.lookup ("games_" ++ uid ++ "_" ++ cc) = none)
    (howned : ∀ s, env.owned s = .error ()) :
    (getGameData env st uid cc now).result = .err
  ∧ (∀ (env2 : FetchEnv) (sid : String) (gs : List GameItem),
      env2.resolve uid = .ok sid → (∀ s, env2.owned s = .ok gs) →
      (getGameData env2 st uid cc now).result ≠ .err)
  ∧ (∀ (renv : RenderEnv) (u : UserData) (p : Params) (a : Assets), a.staticsLoaded →
      opsMem (.fillText "Private Games List" 390 200 (resolveColors p).subTitle "16px Geist")
          (createFullCanvas renv u .err p a)
      ∧ (∀ op, opsMem op (createFullCanvas renv u .err p a) → op.isRoundedRect = false)
      ∧ (∀ s c f, ¬ opsMem (.fillText s 215 80 c f) (createFullCanvas renv u .err p a))) := by
  refine ⟨?_, ?_, ?_⟩
  · simp only [getGameData, hmiss]
    unfold getGameDataFetch
    rcases hsid : st.steamid.lookup ("steamid_" ++ uid) with _ | sid
    · rcases hres : env.resolve uid with _ | sid2
      · simp [hres]
      · simp [hres, howned]
    · simp [howned]
  · intro env2 sid gs hres hown
    simp only [getGameData, hmiss]
    unfold getGameDataFetch
    rcases hsid : st.steamid.lookup ("steamid_" ++ uid) with _ | sid1
    · simp [hres, hown]
    · simp [hown]
  · intro renv u p a hs
    refine ⟨?_, ?_, ?_⟩
    · rw [createFullCanvas_ok renv u .err p a hs]
      simp [opsMem, gameOps]
    · intro op hop
      exact (errRender_no_stats renv u p a hs op hop).1
    · intro s c f hmem
      have := (errRender_no_stats renv u p a hs _ hmem).2
      simp [textAtXY] at this

/-- Concrete run of `restricted_outcome`: a failing owned-games fetch on
an empty cache yields the restricted marker. -/
theorem restricted_outcome_witness :
    (getGameData { fenv0 with owned := fun _ => .error () }
        Store.empty "u" "US" 0).result = .err :=
  (restricted_outcome { fenv0 with owned := fun _ => .error () }
    Store.empty "u" "US" 0 rfl (fun _ => rfl)).1

/-! ## C5: the progress bar

First the binary64 model is characterised: `roundNE` errs by at most half
a unit on the scaled mantissa, the fuel-bounded `log2floorQ` is exact on
the normal range, so one `fl` carries a relative error of at most `2^-53`;
a chain of four roundings therefore keeps `220 * (progress / 100)` within
half a pixel of `220 * playedCount / totalGames`, and the drawn floor
within one pixel of the exact floor.  At `playedCount = 3`,
`totalGames = 11` the chain lands just below 60 and the floors differ. -/

theorem roundNE_err (x : ℚ) : |((roundNE x : ℤ) : ℚ) - x| ≤ 1 / 2 := by
  have h1 : ((⌊x⌋ : ℤ) : ℚ) ≤ x := Int.floor_le x
  have h2 : x < (⌊x⌋ : ℚ) + 1 := Int.lt_floor_add_one x
  unfold roundNE
  split
  · next h =>
    rw [abs_le]
    constructor <;> push_cast <;> linarith
  · next h =>
    split
    · next h3 =>
      rw [abs_le]
      constructor <;> push_cast <;> linarith
    · next h3 =>
      split <;> (rw [abs_le]; constructor <;> push_cast <;> linarith)

theorem roundNE_eq_of_lt (x : ℚ) (f : ℤ) (h1 : (f : ℚ) ≤ x) (h2 : x - f < 1 / 2) :
    roundNE x = f := by
  have hf : ⌊x⌋ = f := Int.floor_eq_iff.mpr ⟨h1, by push_cast; linarith⟩
  unfold roundNE
  rw [hf, if_pos h2]

theorem roundNE_eq_of_gt (x : ℚ) (f : ℤ) (h1 : (f : ℚ) ≤ x) (h2 : 1 / 2 < x - f)
    (h3 : x < (f : ℚ) + 1) : roundNE x = f + 1 := by
  have hf : ⌊x⌋ = f := Int.floor_eq_iff.mpr ⟨h1, by push_cast; linarith⟩
  unfold roundNE
  rw [hf, if_neg (by linarith), if_pos h2]

theorem log2Up_spec : ∀ (fuel : Nat) (q : ℚ) (e : ℤ), 0 ≤ e → e < (fuel : ℤ) →
    (2 : ℚ) ^ e ≤ q → q < (2 : ℚ) ^ (e + 1) → log2Up fuel q = e := by
  intro fuel
  induction fuel with
  | zero =>
    intro q e h0 h1 _ _
    push_cast at h1
    omega
  | succ f ih =>
    intro q e h0 h1 hlo hhi
    by_cases hq : q < 2
    · have he : e = 0 := by
        by_contra hne
        have h2 : (1 : ℤ) ≤ e := by omega
        have h3 : (2 : ℚ) ^ (1 : ℤ) ≤ (2 : ℚ) ^ e := zpow_le_zpow_right₀ (by norm_num) h2
        rw [zpow_one] at h3
        linarith
      subst he
      simp [log2Up, hq]
    · push_neg at hq
      have he : (1 : ℤ) ≤ e := by
        by_contra hne
        have he0 : e = 0 := by omega
        subst he0
        rw [zero_add, zpow_one] at hhi
        linarith
      have hstep : (2 : ℚ) ^ (e - 1) * 2 = (2 : ℚ) ^ e := by
        rw [← zpow_add_one₀ (by norm_num : (2 : ℚ) ≠ 0)]
        congr 1
        omega
      have hlo2 : (2 : ℚ) ^ (e - 1) ≤ q / 2 := by
        rw [le_div_iff₀ (by norm_num : (0 : ℚ) < 2), hstep]
        exact hlo
      have hhi2 : q / 2 < (2 : ℚ) ^ (e - 1 + 1) := by
        have hstep2 : (2 : ℚ) ^ (e - 1 + 1) * 2 = (2 : ℚ) ^ (e + 1) := by
          rw [← zpow_add_one₀ (by norm_num : (2 : ℚ) ≠ 0)]
          congr 1
          omega
        rw [div_lt_iff₀ (by norm_num : (0 : ℚ) < 2), hstep2]
        exact hhi
      have hrec := ih (q / 2) (e - 1) (by omega) (by push_cast at h1 ⊢; omega) hlo2 hhi2
      simp only [log2Up, not_lt.mpr hq, if_false, hrec]
      omega

theorem log2Down_spec : ∀ (fuel : Nat) (q : ℚ) (e : ℤ), e < 0 → -(fuel : ℤ) ≤ e →
    (2 : ℚ) ^ e ≤ q → q < (2 : ℚ) ^ (e + 1) → log2Down fuel q = e := by
  intro fuel
  induction fuel with
  | zero =>
    intro q e h0 h1 _ _
    push_cast at h1
    omega
  | succ f ih =>
    intro q e h0 h1 hlo hhi
    by_cases hq : 1 ≤ q * 2
    · have he : e = -1 := by
        by_contra hne
        have h2 : e + 1 ≤ -1 := by omega
        have h3 : (2 : ℚ) ^ (e + 1) ≤ (2 : ℚ) ^ (-1 : ℤ) := zpow_le_zpow_right₀ (by norm_num) h2
        have h4 : (2 : ℚ) ^ (-1 : ℤ) = 1 / 2 := by norm_num
        rw [h4] at h3
        linarith
      subst he
      simp [log2Down, hq]
    · push_neg at hq
      have he : e ≤ -2 := by
        by_contra hne
        have he1 : e = -1 := by omega
        subst he1
        have h4 : (2 : ℚ) ^ (-1 : ℤ) = 1 / 2 := by norm_num
        rw [h4] at hlo
        linarith
      have hstep : (2 : ℚ) ^ e * 2 = (2 : ℚ) ^ (e + 1) := by
        rw [← zpow_add_one₀ (by norm_num : (2 : ℚ) ≠ 0)]
      have hlo2 : (2 : ℚ) ^ (e + 1) ≤ q * 2 := by
        rw [← hstep]
        linarith
      have hhi2 : q * 2 < (2 : ℚ) ^ (e + 1 + 1) := by
        have hstep2 : (2 : ℚ) ^ (e + 1) * 2 = (2 : ℚ) ^ (e + 1 + 1) := by
          rw [← zpow_add_one₀ (by norm_num : (2 : ℚ) ≠ 0)]
        rw [← hstep2]
        linarith
      have hrec := ih (q * 2) (e + 1) (by omega) (by push_cast at h1 ⊢; omega) hlo2 hhi2
      simp only [log2Down, not_le.mpr hq, if_false, hrec]
      omega

theorem log2floorQ_spec (q : ℚ) (e : ℤ) (h1 : -1100 < e) (h2 : e < 1100)
    (hlo : (2 : ℚ) ^ e ≤ q) (hhi : q < (2 : ℚ) ^ (e + 1)) : log2floorQ q = e := by
  unfold log2floorQ
  by_cases hq : 1 ≤ q
  · have he : 0 ≤ e := by
      by_contra hne
      have h3 : e + 1 ≤ 0 := by omega
      have h4 : (2 : ℚ) ^ (e + 1) ≤ (2 : ℚ) ^ (0 : ℤ) := zpow_le_zpow_right₀ (by norm_num) h3
      rw [zpow_zero] at h4
      linarith
    rw [if_pos hq]
    exact log2Up_spec 1100 q e he (by push_cast; omega) hlo hhi
  · have he : e < 0 := by
      by_contra hne
      have h3 : (2 : ℚ) ^ (0 : ℤ) ≤ (2 : ℚ) ^ e := zpow_le_zpow_right₀ (by norm_num) (by omega)
      rw [zpow_zero] at h3
      exact hq (le_trans h3 hlo)
    rw [if_neg hq]
    exact log2Down_spec 1100 q e he (by push_cast; omega) hlo hhi

theorem fl_spec (q : ℚ) (e : ℤ) (h1 : -1100 < e) (h2 : e < 1100)
    (hlo : (2 : ℚ) ^ e ≤ q) (hhi : q < (2 : ℚ) ^ (e + 1)) :
    fl q = ((roundNE (q * 2 ^ ((52 : ℤ) - e)) : ℤ) : ℚ) / 2 ^ ((52 : ℤ) - e) := by
  have hq0 : 0 < q := lt_of_lt_of_le (zpow_pos (by norm_num) e) hlo
  unfold fl
  rw [if_neg (ne_of_gt hq0), log2floorQ_spec q e h1 h2 hlo hhi]

theorem fl_err (q : ℚ) (e : ℤ) (h1 : -1100 < e) (h2 : e < 1100)
    (hlo : (2 : ℚ) ^ e ≤ q) (hhi : q < (2 : ℚ) ^ (e + 1)) :
    |fl q - q| ≤ q * (2 : ℚ) ^ (-(53 : ℤ)) := by
  have hs : (0 : ℚ) < 2 ^ ((52 : ℤ) - e) := zpow_pos (by norm_num) _
  rw [fl_spec q e h1 h2 hlo hhi]
  have hr := roundNE_err (q * 2 ^ ((52 : ℤ) - e))
  have hdiv : ((roundNE (q * 2 ^ ((52 : ℤ) - e)) : ℤ) : ℚ) / 2 ^ ((52 : ℤ) - e) - q
      = (((roundNE (q * 2 ^ ((52 : ℤ) - e)) : ℤ) : ℚ) - q * 2 ^ ((52 : ℤ) - e))
          / 2 ^ ((52 : ℤ) - e) := by
    field_simp
    ring
  rw [hdiv, abs_div, abs_of_pos hs, div_le_iff₀ hs]
  have hkey : (2 : ℚ) ^ e * ((2 : ℚ) ^ (-(53 : ℤ)) * (2 : ℚ) ^ ((52 : ℤ) - e)) = 1 / 2 := by
    rw [← zpow_add₀ (by norm_num : (2 : ℚ) ≠ 0), ← zpow_add₀ (by norm_num : (2 : ℚ) ≠ 0)]
    rw [show e + (-(53 : ℤ) + ((52 : ℤ) - e)) = -1 by ring]
    norm_num
  have hpos : (0 : ℚ) < (2 : ℚ) ^ (-(53 : ℤ)) * (2 : ℚ) ^ ((52 : ℤ) - e) := by positivity
  calc |((roundNE (q * 2 ^ ((52 : ℤ) - e)) : ℤ) : ℚ) - q * 2 ^ ((52 : ℤ) - e)|
      ≤ 1 / 2 := hr
    _ = (2 : ℚ) ^ e * ((2 : ℚ) ^ (-(53 : ℤ)) * (2 : ℚ) ^ ((52 : ℤ) - e)) := hkey.symm
    _ ≤ q * ((2 : ℚ) ^ (-(53 : ℤ)) * (2 : ℚ) ^ ((52 : ℤ) - e)) :=
        mul_le_mul_of_nonneg_right hlo (le_of_lt hpos)
    _ = q * (2 : ℚ) ^ (-(53 : ℤ)) * (2 : ℚ) ^ ((52 : ℤ) - e) := by ring

theorem fl_err_range (q : ℚ) (h0 : (0 : ℚ) < q)
    (hlo : (2 : ℚ) ^ (-(1000 : ℤ)) ≤ q) (hhi : q < (2 : ℚ) ^ (1000 : ℤ)) :
    |fl q - q| ≤ q * (2 : ℚ) ^ (-(53 : ℤ)) := by
  have hb : (1 : ℕ) < 2 := one_lt_two
  have hcast : ((2 : ℕ) : ℚ) = (2 : ℚ) := by norm_num
  have h1 : (2 : ℚ) ^ Int.log 2 q ≤ q := by
    have := Int.zpow_log_le_self (b := 2) hb h0
    rwa [hcast] at this
  have h2 : q < (2 : ℚ) ^ (Int.log 2 q + 1) := by
    have := Int.lt_zpow_succ_log_self (b := 2) hb q
    rwa [hcast] at this
  have hzp : Int.log 2 ((2 : ℚ) ^ (-(1000 : ℤ))) = -(1000 : ℤ) := by
    rw [← hcast]
    exact Int.log_zpow hb _
  have hlow : -(1000 : ℤ) ≤ Int.log 2 q := by
    have := Int.log_mono_right (b := 2) (zpow_pos (by norm_num : (0 : ℚ) < 2) _) hlo
    rwa [hzp] at this
  have hhig : Int.log 2 q < 1000 := by
    by_contra hcon
    push_neg at hcon
    have h3 : (2 : ℚ) ^ (1000 : ℤ) ≤ (2 : ℚ) ^ Int.log 2 q :=
      zpow_le_zpow_right₀ (by norm_num) hcon
    linarith
  exact fl_err q (Int.log 2 q) (by omega) (by omega) h1 h2

/-- Accumulated error over the four roundings of the progress-bar chain:
division, `* 100`, `/ 100`, `* 220`, each with relative error `ε`. -/
theorem chain_bound (q0 q1 q2 q3 q4 e : ℚ)
    (hepos : 0 < e) (hehalf : e ≤ 1 / 2)
    (hq0pos : 0 < q0) (hq0le1 : q0 ≤ 1)
    (h1 : |q1 - q0| ≤ q0 * e)
    (h2 : |q2 - q1 * 100| ≤ q1 * 100 * e)
    (h3 : |q3 - q2 / 100| ≤ q2 / 100 * e)
    (h4 : |q4 - 220 * q3| ≤ 220 * q3 * e) :
    |q4 - 220 * q0| ≤ 2200 * e := by
  obtain ⟨a1, b1⟩ := abs_le.mp h1
  obtain ⟨a2, b2⟩ := abs_le.mp h2
  obtain ⟨a3, b3⟩ := abs_le.mp h3
  obtain ⟨a4, b4⟩ := abs_le.mp h4
  have c1 : q0 * e ≤ 1 * e := mul_le_mul_of_nonneg_right hq0le1 hepos.le
  have hq1le : q1 ≤ 3 / 2 := by linarith
  have c2 : q1 * 100 * e ≤ 150 * e := mul_le_mul_of_nonneg_right (by linarith) hepos.le
  have hx2le : q2 / 100 ≤ 9 / 4 := by linarith
  have c3 : q2 / 100 * e ≤ 9 / 4 * e := mul_le_mul_of_nonneg_right hx2le hepos.le
  have he94 : (9 : ℚ) / 4 * e ≤ 9 / 8 := by nlinarith
  have hq3le : q3 ≤ 27 / 8 := by linarith
  have c4 : 220 * q3 * e ≤ 220 * (27 / 8) * e :=
    mul_le_mul_of_nonneg_right (by linarith) hepos.le
  rw [abs_le]
  constructor <;> linarith

theorem floor_div_nat_int (p t : Nat) :
    (⌊((220 * p : ℕ) : ℚ) / ((t : ℕ) : ℚ)⌋ : ℤ) = ((220 * p / t : ℕ) : ℤ) := by
  have hx0 : (0 : ℚ) ≤ ((220 * p : ℕ) : ℚ) / ((t : ℕ) : ℚ) := by positivity
  calc (⌊((220 * p : ℕ) : ℚ) / ((t : ℕ) : ℚ)⌋ : ℤ)
      = ((⌊((220 * p : ℕ) : ℚ) / ((t : ℕ) : ℚ)⌋).toNat : ℤ) :=
        (Int.toNat_of_nonneg (Int.floor_nonneg.2 hx0)).symm
    _ = ((⌊((220 * p : ℕ) : ℚ) / ((t : ℕ) : ℚ)⌋₊ : ℕ) : ℤ) := by
        rw [Int.floor_toNat]
    _ = ((220 * p / t : ℕ) : ℤ) := by
        rw [Nat.floor_div_eq_div]

/-- The drawn fill width stays within one pixel of the exact
`floor(220 * playedCount / totalGames)`. -/
theorem barFill_close (p t : Nat) (hpt : p ≤ t) (ht : 0 < t) (hbig : t ≤ 2 ^ 500) :
    ((220 * p / t : ℕ) : ℤ) - 1 ≤ barFillWidthOf (progressVal p t)
  ∧ barFillWidthOf (progressVal p t) ≤ ((220 * p / t : ℕ) : ℤ) + 1 := by
  unfold barFillWidthOf progressVal
  by_cases hp : p = 0
  · subst hp
    rw [show ((0 : ℕ) : ℚ) / ((t : ℕ) : ℚ) = 0 by simp]
    simp [fl]
  · have hp1 : 1 ≤ p := Nat.one_le_iff_ne_zero.mpr hp
    have ht0 : (0 : ℚ) < (t : ℚ) := by exact_mod_cast ht
    have hq0pos : 0 < (p : ℚ) / (t : ℚ) := div_pos (by exact_mod_cast hp1) ht0
    have hq0le1 : (p : ℚ) / (t : ℚ) ≤ 1 := by
      rw [div_le_one ht0]
      exact_mod_cast hpt
    have hepos : (0 : ℚ) < (2 : ℚ) ^ (-(53 : ℤ)) := zpow_pos (by norm_num) _
    have hehalf : (2 : ℚ) ^ (-(53 : ℤ)) ≤ 1 / 2 := by norm_num
    have h1000hi : (2000 : ℚ) < (2 : ℚ) ^ (1000 : ℤ) := by norm_num
    have htQ : (t : ℚ) ≤ (2 : ℚ) ^ (500 : ℤ) := by
      have hc : ((2 ^ 500 : ℕ) : ℚ) = (2 : ℚ) ^ (500 : ℤ) := by
        rw [show (500 : ℤ) = ((500 : ℕ) : ℤ) from by norm_num, zpow_natCast]
        push_cast
        rfl
      calc (t : ℚ) ≤ ((2 ^ 500 : ℕ) : ℚ) := by exact_mod_cast hbig
        _ = (2 : ℚ) ^ (500 : ℤ) := hc
    have hinv : (2 : ℚ) ^ (-(500 : ℤ)) ≤ 1 / (t : ℚ) := by
      rw [zpow_neg, ← one_div]
      exact one_div_le_one_div_of_le ht0 htQ
    have hq0lo : (2 : ℚ) ^ (-(500 : ℤ)) ≤ (p : ℚ) / (t : ℚ) := by
      calc (2 : ℚ) ^ (-(500 : ℤ)) ≤ 1 / (t : ℚ) := hinv
        _ ≤ (p : ℚ) / (t : ℚ) := by
            rw [div_le_div_iff_of_pos_right ht0]
            exact_mod_cast hp1
    have hz1 : (2 : ℚ) ^ (-(1000 : ℤ)) ≤ (2 : ℚ) ^ (-(500 : ℤ)) :=
      zpow_le_zpow_right₀ (by norm_num) (by norm_num)
    have hz4 : (2 : ℚ) ^ (-(1000 : ℤ)) * 4 ≤ (2 : ℚ) ^ (-(500 : ℤ)) := by
      have he1 : (2 : ℚ) ^ (-(1000 : ℤ)) * 4 = (2 : ℚ) ^ (-(998 : ℤ)) := by
        rw [show (4 : ℚ) = (2 : ℚ) ^ (2 : ℤ) by norm_num,
            ← zpow_add₀ (by norm_num : (2 : ℚ) ≠ 0)]
        norm_num
      rw [he1]
      exact zpow_le_zpow_right₀ (by norm_num) (by norm_num)
    -- step 1: q1 = fl (p/t)
    have e1 := fl_err_range ((p : ℚ) / (t : ℚ)) hq0pos (le_trans hz1 hq0lo)
      (lt_of_le_of_lt hq0le1 (by linarith))
    obtain ⟨a1, b1⟩ := abs_le.mp e1
    have c1 : (p : ℚ) / (t : ℚ) * ((2 : ℚ) ^ (-(53 : ℤ)))
        ≤ (p : ℚ) / (t : ℚ) * (1 / 2) :=
      mul_le_mul_of_nonneg_left hehalf hq0pos.le
    have hq1lo : (p : ℚ) / (t : ℚ) / 2 ≤ fl ((p : ℚ) / (t : ℚ)) := by linarith
    have hq1pos : 0 < fl ((p : ℚ) / (t : ℚ)) := by linarith
    have c1b : (p : ℚ) / (t : ℚ) * ((2 : ℚ) ^ (-(53 : ℤ))) ≤ 1 * ((2 : ℚ) ^ (-(53 : ℤ))) :=
      mul_le_mul_of_nonneg_right hq0le1 hepos.le
    have hq1hi : fl ((p : ℚ) / (t : ℚ)) ≤ 3 / 2 := by linarith
    -- step 2: q2 = fl (q1 * 100)
    have hx1pos : 0 < fl ((p : ℚ) / (t : ℚ)) * 100 := by linarith
    have hx1lo : (2 : ℚ) ^ (-(1000 : ℤ)) ≤ fl ((p : ℚ) / (t : ℚ)) * 100 := by
      have h50 : (p : ℚ) / (t : ℚ) ≤ fl ((p : ℚ) / (t : ℚ)) * 100 := by linarith
      linarith
    have hx1hi : fl ((p : ℚ) / (t : ℚ)) * 100 < (2 : ℚ) ^ (1000 : ℤ) := by linarith
    have e2 := fl_err_range (fl ((p : ℚ) / (t : ℚ)) * 100) hx1pos hx1lo hx1hi
    obtain ⟨a2, b2⟩ := abs_le.mp e2
    have c2 : fl ((p : ℚ) / (t : ℚ)) * 100 * ((2 : ℚ) ^ (-(53 : ℤ)))
        ≤ fl ((p : ℚ) / (t : ℚ)) * 100 * (1 / 2) :=
      mul_le_mul_of_nonneg_left hehalf hx1pos.le
    have hq2lo : fl ((p : ℚ) / (t : ℚ)) * 100 / 2 ≤ fl (fl ((p : ℚ) / (t : ℚ)) * 100) := by
      linarith
    have hq2pos : 0 < fl (fl ((p : ℚ) / (t : ℚ)) * 100) := by linarith
    have c2b : fl ((p : ℚ) / (t : ℚ)) * 100 * ((2 : ℚ) ^ (-(53 : ℤ)))
        ≤ 150 * ((2 : ℚ) ^ (-(53 : ℤ))) :=
      mul_le_mul_of_nonneg_right (by linarith) hepos.le
    have he150 : (150 : ℚ) * ((2 : ℚ) ^ (-(53 : ℤ))) ≤ 150 * (1 / 2) :=
      mul_le_mul_of_nonneg_left hehalf (by norm_num)
    have hq2hi : fl (fl ((p : ℚ) / (t : ℚ)) * 100) ≤ 300 := by linarith
    -- step 3: q3 = fl (q2 / 100)
    have hx2pos : 0 < fl (fl ((p : ℚ) / (t : ℚ)) * 100) / 100 := by linarith
    have hx2lo : (2 : ℚ) ^ (-(1000 : ℤ)) ≤ fl (fl ((p : ℚ) / (t : ℚ)) * 100) / 100 := by
      have hstep : (p : ℚ) / (t : ℚ) / 4 ≤ fl (fl ((p : ℚ) / (t : ℚ)) * 100) / 100 := by
        linarith
      linarith
    have hx2hi : fl (fl ((p : ℚ) / (t : ℚ)) * 100) / 100 < (2 : ℚ) ^ (1000 : ℤ) := by
      linarith
    have e3 := fl_err_range (fl (fl ((p : ℚ) / (t : ℚ)) * 100) / 100) hx2pos hx2lo hx2hi
    obtain ⟨a3, b3⟩ := abs_le.mp e3
    have c3 : fl (fl ((p : ℚ) / (t : ℚ)) * 100) / 100 * ((2 : ℚ) ^ (-(53 : ℤ)))
        ≤ fl (fl ((p : ℚ) / (t : ℚ)) * 100) / 100 * (1 / 2) :=
      mul_le_mul_of_nonneg_left hehalf hx2pos.le
    have hq3lo : fl (fl ((p : ℚ) / (t : ℚ)) * 100) / 100 / 2
        ≤ fl (fl (fl ((p : ℚ) / (t : ℚ)) * 100) / 100) := by linarith
    have hq3pos : 0 < fl (fl (fl ((p : ℚ) / (t : ℚ)) * 100) / 100) := by linarith
    have c3b : fl (fl ((p : ℚ) / (t : ℚ)) * 100) / 100 * ((2 : ℚ) ^ (-(53 : ℤ)))
        ≤ 3 * ((2 : ℚ) ^ (-(53 : ℤ))) :=
      mul_le_mul_of_nonneg_right (by linarith) hepos.le
    have he3 : (3 : ℚ) * ((2 : ℚ) ^ (-(53 : ℤ))) ≤ 3 * (1 / 2) :=
      mul_le_mul_of_nonneg_left hehalf (by norm_num)
    have hq3hi : fl (fl (fl ((p : ℚ) / (t : ℚ)) * 100) / 100) ≤ 5 := by linarith
    -- step 4: q4 = fl (220 * q3)
    have hx3pos : 0 < (220 : ℚ) * fl (fl (fl ((p : ℚ) / (t : ℚ)) * 100) / 100) := by
      linarith only [hq3pos]
    have hx3lo : (2 : ℚ) ^ (-(1000 : ℤ))
        ≤ (220 : ℚ) * fl (fl (fl ((p : ℚ) / (t : ℚ)) * 100) / 100) := by
      have hge : fl (fl ((p : ℚ) / (t : ℚ)) * 100) / 100
          ≤ (220 : ℚ) * fl (fl (fl ((p : ℚ) / (t : ℚ)) * 100) / 100) := by
        linarith only [hq3lo, hx2pos]
      have hstep : (p : ℚ) / (t : ℚ) / 4 ≤ fl (fl ((p : ℚ) / (t : ℚ)) * 100) / 100 := by
        linarith only [hq2lo, hq1lo]
      linarith only [hge, hstep, hq0lo, hz4]
    have hx3hi : (220 : ℚ) * fl (fl (fl ((p : ℚ) / (t : ℚ)) * 100) / 100)
        < (2 : ℚ) ^ (1000 : ℤ) := by linarith only [hq3hi, h1000hi]
    have e4 := fl_err_range ((220 : ℚ) * fl (fl (fl ((p : ℚ) / (t : ℚ)) * 100) / 100))
      hx3pos hx3lo hx3hi
    -- assemble
    have hchain := chain_bound ((p : ℚ) / (t : ℚ)) (fl ((p : ℚ) / (t : ℚ)))
      (fl (fl ((p : ℚ) / (t : ℚ)) * 100)) (fl (fl (fl ((p : ℚ) / (t : ℚ)) * 100) / 100))
      (fl ((220 : ℚ) * fl (fl (fl ((p : ℚ) / (t : ℚ)) * 100) / 100)))
      ((2 : ℚ) ^ (-(53 : ℤ))) hepos hehalf hq0pos hq0le1 e1 e2 e3 e4
    obtain ⟨hcl, hcu⟩ := abs_le.mp hchain
    have h2200 : (2200 : ℚ) * ((2 : ℚ) ^ (-(53 : ℤ))) < 1 / 2 := by norm_num
    have h220q0 : (220 : ℚ) * ((p : ℚ) / (t : ℚ)) = ((220 * p : ℕ) : ℚ) / ((t : ℕ) : ℚ) := by
      push_cast
      ring
    have hfd := floor_div_nat_int p t
    have hFle : ((((220 * p / t : ℕ) : ℤ)) : ℚ) ≤ 220 * ((p : ℚ) / (t : ℚ)) := by
      rw [h220q0, ← hfd]
      exact Int.floor_le _
    have hFlt : 220 * ((p : ℚ) / (t : ℚ)) < ((((220 * p / t : ℕ) : ℤ)) : ℚ) + 1 := by
      rw [h220q0, ← hfd]
      exact Int.lt_floor_add_one _
    constructor
    · rw [Int.le_floor]
      push_cast
      push_cast at hFle
      linarith only [hcl, h2200, hFle]
    · have hlt : ⌊fl ((220 : ℚ) * fl (fl (fl ((p : ℚ) / (t : ℚ)) * 100) / 100))⌋
          < ((220 * p / t : ℕ) : ℤ) + 2 := by
        rw [Int.floor_lt]
        push_cast
        push_cast at hFlt
        linarith only [hcu, h2200, hFlt]
      have hrw : ((220 * p / t : ℕ) : ℤ) + 2 = (((220 * p / t : ℕ) : ℤ) + 1) + 1 := by
        ring
      rw [hrw] at hlt
      exact Int.lt_add_one_iff.mp hlt

/-- C5 (counterexample): at 3 of 11 games played the binary64 chain
computes `220 * ((3 / 11 * 100) / 100)` as `59.99999999999999…`, and
`Math.floor` yields 59, one below `floor(220 * 3 / 11) = 60` — the fill
width does not equal `floor(barWidth * playedCount / totalGameCount)`. -/
theorem progress_bar_float_counterexample :
    barFillWidthOf (progressVal 3 11) = 59
  ∧ (220 * 3 / 11 : ℕ) = 60
  ∧ barOps (resolveColors Params.none0) 3 11
      = [ .roundedRect 215 330 (.val 220) 12 6 (resolveColors Params.none0).progBg,
          .roundedRect 215 330 (.val 59) 12 6 (resolveColors Params.none0).progColor ]
  ∧ (59 : ℤ) ≠ ((220 * 3 / 11 : ℕ) : ℤ) := by
  have h1 : fl ((3 : ℚ) / 11) = 4913017775313268 / 18014398509481984 := by
    rw [fl_spec ((3 : ℚ) / 11) (-2) (by norm_num) (by norm_num) (by norm_num) (by norm_num)]
    rw [show ((3 : ℚ) / 11) * 2 ^ ((52 : ℤ) - (-2)) = 54043195528445952 / 11 by norm_num]
    rw [roundNE_eq_of_lt (54043195528445952 / 11) 4913017775313268 (by norm_num) (by norm_num)]
    norm_num
  have h2 : fl ((4913017775313268 / 18014398509481984 : ℚ) * 100)
      = 7676590273926981 / 281474976710656 := by
    rw [fl_spec _ 4 (by norm_num) (by norm_num) (by norm_num) (by norm_num)]
    rw [show ((4913017775313268 / 18014398509481984 : ℚ) * 100) * 2 ^ ((52 : ℤ) - 4)
        = 30706361095707925 / 4 by norm_num]
    rw [roundNE_eq_of_lt (30706361095707925 / 4) 7676590273926981 (by norm_num) (by norm_num)]
    norm_num
  have h3 : fl ((7676590273926981 / 281474976710656 : ℚ) / 100)
      = 4913017775313268 / 18014398509481984 := by
    rw [fl_spec _ (-2) (by norm_num) (by norm_num) (by norm_num) (by norm_num)]
    rw [show ((7676590273926981 / 281474976710656 : ℚ) / 100) * 2 ^ ((52 : ℤ) - (-2))
        = 122825444382831696 / 25 by norm_num]
    rw [roundNE_eq_of_gt (122825444382831696 / 25) 4913017775313267 (by norm_num)
      (by norm_num) (by norm_num)]
    norm_num
  have h4 : fl ((220 : ℚ) * (4913017775313268 / 18014398509481984))
      = 8444249301319679 / 140737488355328 := by
    rw [fl_spec _ 5 (by norm_num) (by norm_num) (by norm_num) (by norm_num)]
    rw [show ((220 : ℚ) * (4913017775313268 / 18014398509481984)) * 2 ^ ((52 : ℤ) - 5)
        = 67553994410557435 / 8 by norm_num]
    rw [roundNE_eq_of_lt (67553994410557435 / 8) 8444249301319679 (by norm_num) (by norm_num)]
    norm_num
  have hPV : progressVal 3 11 = 7676590273926981 / 281474976710656 := by
    unfold progressVal
    rw [show ((3 : ℕ) : ℚ) = (3 : ℚ) by norm_num, show ((11 : ℕ) : ℚ) = (11 : ℚ) by norm_num,
        h1, h2]
  have hW : barFillWidthOf (progressVal 3 11) = 59 := by
    rw [hPV]
    unfold barFillWidthOf
    rw [h3, h4]
    rw [show (⌊(8444249301319679 : ℚ) / 140737488355328⌋ : ℤ) = 59 from by
      rw [Int.floor_eq_iff]
      norm_num]
  refine ⟨hW, by norm_num, ?_, by norm_num⟩
  have hj : (jsDiv 3 11).mulPos 100 = .val (progressVal 3 11) := by
    simp [jsDiv, JsNum.mulPos, progressVal]
  simp only [barOps, hj, hW]
  norm_num

/-- C5 (amended): for a non-restricted library result
(`playedCount ≤ totalGames`, any realistic library size), a zero total
game count makes the progress computation `NaN`, and the renderer emits
neither a progress-bar rectangle nor any counter-line text (baseline
y = 324); for a positive total the filled bar is drawn with width
`Math.floor(220 * (progress / 100))` evaluated in binary64, which always
lies within one pixel of `floor(220 * playedCount / totalGames)` but, as
the counterexample shows, can fall below it. -/
theorem progress_bar_fill (env : RenderEnv) (u : UserData) (gd : GameData)
    (p : Params) (a : Assets) (hs : a.staticsLoaded)
    (hpt : gd.playedCount ≤ gd.totalGames) (hbig : gd.totalGames ≤ 2 ^ 500) :
    (gd.totalGames = 0 →
        ∀ op, opsMem op (createFullCanvas env u (.ok gd) p a) →
          op.isRoundedRect = false ∧ textAtY 324 op = false)
  ∧ (0 < gd.totalGames →
      opsMem (.roundedRect 215 330
          (.val ((barFillWidthOf (progressVal gd.playedCount gd.totalGames) : ℤ) : ℚ))
          12 6 (resolveColors p).progColor)
        (createFullCanvas env u (.ok gd) p a)
      ∧ ((220 * gd.playedCount / gd.totalGames : ℕ) : ℤ) - 1
          ≤ barFillWidthOf (progressVal gd.playedCount gd.totalGames)
      ∧ barFillWidthOf (progressVal gd.playedCount gd.totalGames)
          ≤ ((220 * gd.playedCount / gd.totalGames : ℕ) : ℤ) + 1) := by
  constructor
  · intro h0 op hop
    clear hbig
    have hp0 : gd.playedCount = 0 := by omega
    rw [createFullCanvas_ok env u (.ok gd) p a hs] at hop
    have hgops : gameOps env (resolveColors p) (.ok gd)
        = statOps env (resolveColors p) gd := by
      simp [gameOps, counterOps, barOps, jsDiv, h0, hp0, JsNum.mulPos]
    rw [hgops] at hop
    simp only [opsMem, List.mem_append] at hop
    rcases hop with ((hop | hop) | hop) | hop
    · have := List.all_eq_true.mp (identityOps_classes env u (resolveColors p)) op hop
      simp at this
      tauto
    · have := List.all_eq_true.mp (statOps_classes env (resolveColors p) gd) op hop
      simp at this
      tauto
    · have := List.all_eq_true.mp (avatarOps_classes u a) op hop
      simp at this
      tauto
    · have := List.all_eq_true.mp
        (borderOps_classes (resolveColors p) p.hide_border p.border_width) op hop
      simp at this
      tauto
  · intro h0
    have hclose := barFill_close gd.playedCount gd.totalGames hpt h0 hbig
    refine ⟨?_, hclose.1, hclose.2⟩
    have ht0 : gd.totalGames ≠ 0 := by omega
    have hj : (jsDiv gd.playedCount gd.totalGames).mulPos 100
        = .val (progressVal gd.playedCount gd.totalGames) := by
      simp [jsDiv, JsNum.mulPos, progressVal, ht0]
    have hbar : barOps (resolveColors p) gd.playedCount gd.totalGames
        = [ .roundedRect 215 330 (.val 220) 12 6 (resolveColors p).progBg,
            .roundedRect 215 330
              (.val ((barFillWidthOf (progressVal gd.playedCount gd.totalGames) : ℤ) : ℚ))
              12 6 (resolveColors p).progColor ] := by
      unfold barOps
      rw [hj]
    rw [createFullCanvas_ok env u (.ok gd) p a hs]
    simp [opsMem, gameOps, hbar]

/-- Concrete run of `progress_bar_fill`: for 2 of 4 games played the
fill-width rectangle is drawn with the binary64-computed width. -/
theorem progress_bar_fill_witness :
    opsMem (.roundedRect 215 330
        (.val ((barFillWidthOf (progressVal gd0.playedCount gd0.totalGames) : ℤ) : ℚ))
        12 6 (resolveColors Params.none0).progColor)
      (createFullCanvas env0 user0 (.ok gd0) Params.none0 assets0) :=
  ((progress_bar_fill env0 user0 gd0 Params.none0 assets0 (by decide) (by decide)
    (by decide)).2 (by decide)).1

/-! ## C4: username truncation -/

theorem truncGo_le_result (m : String → Nat) (name : String) :
    ∀ (fuel i acc : Nat), acc ≤ i → acc ≤ truncGo m name fuel i acc := by
  intro fuel
  induction fuel with
  | zero =>
    intro i acc _
    simp [truncGo]
  | succ f ih =>
    intro i acc h
    by_cases hc : 180 < m (name.take i ++ ellipsis)
    · simp [truncGo, hc]
    · simp only [truncGo, hc, if_false]
      exact le_trans h (ih (i + 1) i (Nat.le_succ i))

theorem truncGo_fits (m : String → Nat) (name : String) :
    ∀ (fuel i acc : Nat), m (name.take acc ++ ellipsis) ≤ 180 →
      m (name.take (truncGo m name fuel i acc) ++ ellipsis) ≤ 180 := by
  intro fuel
  induction fuel with
  | zero =>
    intro i acc h
    simpa [truncGo] using h
  | succ f ih =>
    intro i acc h
    by_cases hc : 180 < m (name.take i ++ ellipsis)
    · simpa [truncGo, hc] using h
    · simp only [truncGo, hc, if_false]
      exact ih (i + 1) i (Nat.le_of_not_lt hc)

theorem truncGo_ge (m : String → Nat) (name : String)
    (hmono : ∀ j, j ≤ name.length → ∀ i, i ≤ j →
      m (name.take i ++ ellipsis) ≤ m (name.take j ++ ellipsis)) :
    ∀ (fuel i acc j : Nat), i + fuel = name.length → i ≤ j → j < i + fuel →
      m (name.take j ++ ellipsis) ≤ 180 → j ≤ truncGo m name fuel i acc := by
  intro fuel
  induction fuel with
  | zero =>
    intro i acc j _ h1 h2 _
    omega
  | succ f ih =>
    intro i acc j hlen hij hjf hj
    have hi : m (name.take i ++ ellipsis) ≤ 180 :=
      le_trans (hmono j (by omega) i hij) hj
    have hc : ¬ 180 < m (name.take i ++ ellipsis) := by omega
    simp only [truncGo, hc, if_false]
    rcases Nat.eq_or_lt_of_le hij with rfl | hlt
    · exact truncGo_le_result m name f (i + 1) i (Nat.le_succ i)
    · exact ih (i + 1) i j (by omega) hlt (by omega) hj

/-- C4: with text widths monotone in the prefix length (and an ellipsis
that itself fits), a username wider than 180 is drawn as a prefix plus
`'...'` measuring at most 180, and that prefix is the longest one whose
truncated form fits; a username measuring at most 180 is drawn
unmodified. -/
theorem username_truncation (m : String → Nat) (name : String)
    (hmono : ∀ j, j ≤ name.length → ∀ i, i ≤ j →
      m (name.take i ++ ellipsis) ≤ m (name.take j ++ ellipsis))
    (hell : m (name.take 0 ++ ellipsis) ≤ 180)
    (hfull : m name ≤ m (name.take name.length ++ ellipsis)) :
    (180 < m name →
        renderedUsername m name = name.take (truncLen m name) ++ ellipsis
      ∧ m (name.take (truncLen m name) ++ ellipsis) ≤ 180
      ∧ ∀ i, i ≤ name.length → m (name.take i ++ ellipsis) ≤ 180 → i ≤ truncLen m name)
  ∧ (m name ≤ 180 → renderedUsername m name = name) := by
  constructor
  · intro hover
    refine ⟨by simp [renderedUsername, hover], truncGo_fits m name name.length 0 0 hell, ?_⟩
    intro i hile hi
    rcases Nat.lt_or_ge i name.length with hlt | hge
    · exact truncGo_ge m name hmono name.length 0 0 i (by omega) (Nat.zero_le i) (by omega) hi
    · have hi' : i = name.length := by omega
      subst hi'
      have := le_trans hfull hi
      omega
  · intro hle
    rw [renderedUsername, if_neg (by omega)]

/-- Concrete run of `username_truncation`: with every character 60 wide,
`"abcde"` measures 300 and is drawn truncated with the ellipsis. -/
theorem username_truncation_witness :
    renderedUsername (fun s => 60 * s.length) "abcde"
      = "abcde".take (truncLen (fun s => 60 * s.length) "abcde") ++ ellipsis :=
  ((username_truncation (fun s => 60 * s.length) "abcde"
    (by decide) (by decide) (by decide)).1 (by decide)).1

/-! ## C6: border width -/

theorem takeWhile_isDigit_all (ds : List Char) (h : ds.all Char.isDigit = true) :
    ds.takeWhile Char.isDigit = ds := by
  induction ds with
  | nil => rfl
  | cons c cs ih =>
    simp only [List.all_cons, Bool.and_eq_true] at h
    simp [List.takeWhile_cons, h.1, ih h.2]

theorem dropWhile_isDigit_all (ds : List Char) (h : ds.all Char.isDigit = true) :
    ds.dropWhile Char.isDigit = [] := by
  induction ds with
  | nil => rfl
  | cons c cs ih =>
    simp only [List.all_cons, Bool.and_eq_true] at h
    simp [List.dropWhile_cons, h.1, ih h.2]

theorem jsParseIntDigits_all (ds : List Char) (hne : ds ≠ [])
    (h : ds.all Char.isDigit = true) :
    jsParseIntDigits ds = some (parseDigitsAcc ds 0) := by
  unfold jsParseIntDigits
  rw [takeWhile_isDigit_all ds h]
  cases ds with
  | nil => exact absurd rfl hne
  | cons c cs => simp

theorem digit_not_sign (c : Char) (h : c.isDigit = true) : c ≠ '-' ∧ c ≠ '+' := by
  constructor <;> rintro rfl <;> simp [Char.isDigit] at h

theorem jsToNumberMag_digits (ds : List Char) (hne : ds ≠ [])
    (hall : ds.all Char.isDigit = true) :
    jsToNumberMag ds = some ((parseDigitsAcc ds 0 : Nat) : ℚ) := by
  simp only [jsToNumberMag, takeWhile_isDigit_all _ hall, dropWhile_isDigit_all _ hall]
  cases ds with
  | nil => exact absurd rfl hne
  | cons c cs => simp

theorem jsToNumber_digits (ds : List Char) (hne : ds ≠ [])
    (hall : ds.all Char.isDigit = true) :
    jsToNumber ds = .val ((parseDigitsAcc ds 0 : Nat) : ℚ) := by
  cases ds with
  | nil => exact absurd rfl hne
  | cons c cs =>
    have hc : c.isDigit = true := by
      simp only [List.all_cons, Bool.and_eq_true] at hall
      exact hall.1
    obtain ⟨h1, h2⟩ := digit_not_sign c hc
    simp only [jsToNumber, if_neg h1, if_neg h2,
      jsToNumberMag_digits (c :: cs) (by simp) hall]

theorem jsParseInt_digits (ds : List Char) (hne : ds ≠ [])
    (hall : ds.all Char.isDigit = true) :
    jsParseInt ds = some ((parseDigitsAcc ds 0 : Nat) : Int) := by
  cases ds with
  | nil => exact absurd rfl hne
  | cons c cs =>
    have hc : c.isDigit = true := by
      simp only [List.all_cons, Bool.and_eq_true] at hall
      exact hall.1
    obtain ⟨h1, h2⟩ := digit_not_sign c hc
    simp only [jsParseInt, if_neg h1, if_neg h2,
      jsParseIntDigits_all (c :: cs) (by simp) hall]
    rfl

theorem jsToNumber_neg_digits (ds : List Char) (hne : ds ≠ [])
    (hall : ds.all Char.isDigit = true) :
    jsToNumber ('-' :: ds) = .val (-((parseDigitsAcc ds 0 : Nat) : ℚ)) := by
  simp only [jsToNumber, if_pos rfl, jsToNumberMag_digits ds hne hall]
  simp

theorem jsParseInt_neg_digits (ds : List Char) (hne : ds ≠ [])
    (hall : ds.all Char.isDigit = true) :
    jsParseInt ('-' :: ds) = some (-((parseDigitsAcc ds 0 : Nat) : Int)) := by
  simp only [jsParseInt, if_pos rfl, jsParseIntDigits_all ds hne hall]
  rfl

/-- C6 (counterexample): the input `5.7` is below 10 but the stroke is
assigned `parseInt('5.7') = 5`, not the given width `5.7` — a
fractional width below 10 is not accepted as-is. -/
theorem border_width_fractional_truncated :
    borderLineWidth (some (String.mk ['5', '.', '7'])) = some 5
  ∧ jsToNumber ['5', '.', '7'] = .val (57 / 10)
  ∧ ((5 : ℚ) ≠ 57 / 10) := by
  have h1 : List.takeWhile Char.isDigit ['5', '.', '7'] = ['5'] := by decide
  have h2 : List.dropWhile Char.isDigit ['5', '.', '7'] = ['.', '7'] := by decide
  have h3 : (['7'].all Char.isDigit
      && !((['5'] : List Char).isEmpty && (['7'] : List Char).isEmpty)) = true := by decide
  have h4 : parseDigitsAcc ['5'] 0 = 5 := by decide
  have h5 : parseDigitsAcc ['7'] 0 = 7 := by decide
  have hmag : jsToNumberMag ['5', '.', '7'] = some (57 / 10) := by
    simp only [jsToNumberMag, h1, h2, if_pos rfl, h3, if_pos, h4, h5]
    norm_num
  have hnum : jsToNumber ['5', '.', '7'] = .val (57 / 10) := by
    simp only [jsToNumber, if_neg (show ¬('5' = '-') by decide),
      if_neg (show ¬('5' = '+') by decide), hmag]
  refine ⟨?_, hnum, by norm_num⟩
  have hge : jsNumGe10 (jsToNumber ['5', '.', '7']) = false := by
    rw [hnum]
    simp only [jsNumGe10, decide_eq_false_iff_not]
    norm_num
  have hpi : jsParseInt ['5', '.', '7'] = some 5 := by decide
  simp [borderLineWidth, hge, hpi]

/-- C6 (amended): with the border not hidden, the stroke is drawn with
`parseInt(border_width >= 10 ? 10 : border_width)`: width 1 when the
parameter is absent, width 10 for numeric values at least 10, the given
value for integer inputs below 10 — including negative integers, accepted
as-is — while fractional inputs are truncated by `parseInt` and
unparsable inputs produce `NaN` rather than a usable width. -/
theorem border_width_resolution (ds : List Char) (hne : ds ≠ [])
    (hall : ds.all Char.isDigit = true) :
    borderLineWidth none = some 1
  ∧ (10 ≤ parseDigitsAcc ds 0 →
      borderLineWidth (some (String.mk ds)) = some 10)
  ∧ (parseDigitsAcc ds 0 < 10 →
      borderLineWidth (some (String.mk ds)) = some ((parseDigitsAcc ds 0 : Nat) : Int))
  ∧ borderLineWidth (some (String.mk ('-' :: ds))) = some (-((parseDigitsAcc ds 0 : Nat) : Int))
  ∧ borderLineWidth (some (String.mk ('x' :: ds))) = none
  ∧ (∀ (pal : Palette) (hb bw : Option String), hb ≠ some "true" →
      borderOps pal hb bw = [ .borderRect 0 0 705 385 pal.border (borderLineWidth bw) ]) := by
  refine ⟨rfl, ?_, ?_, ?_, ?_, ?_⟩
  · intro h10
    have hq : (10 : ℚ) ≤ ((parseDigitsAcc ds 0 : Nat) : ℚ) := by exact_mod_cast h10
    simp [borderLineWidth, jsToNumber_digits ds hne hall, jsNumGe10, hq]
  · intro h10
    have hq : ¬ (10 : ℚ) ≤ ((parseDigitsAcc ds 0 : Nat) : ℚ) := by
      push_neg
      exact_mod_cast h10
    simp [borderLineWidth, jsToNumber_digits ds hne hall, jsNumGe10, hq,
          jsParseInt_digits ds hne hall]
  · have hq : ¬ (10 : ℚ) ≤ -((parseDigitsAcc ds 0 : Nat) : ℚ) := by
      have : (0 : ℚ) ≤ ((parseDigitsAcc ds 0 : Nat) : ℚ) := Nat.cast_nonneg _
      push_neg
      linarith
    simp [borderLineWidth, jsToNumber_neg_digits ds hne hall, jsNumGe10, hq,
          jsParseInt_neg_digits ds hne hall]
  · have hx : jsToNumber ('x' :: ds) = .nan := rfl
    have hp : jsParseInt ('x' :: ds) = none := rfl
    simp [borderLineWidth, hx, hp, jsNumGe10]
  · intro pal hb bw hhb
    unfold borderOps
    rw [if_neg hhb]

/-- Concrete run of `border_width_resolution`: the input `42` is at least
10, so the stroke width is clamped to 10. -/
theorem border_width_resolution_witness :
    borderLineWidth (some (String.mk ['4', '2'])) = some 10 :=
  (border_width_resolution ['4', '2'] (by decide) (by decide)).2.1 (by decide)

/-! ## C7 and C10: cache validity and error paths -/

theorem userSummaryStep_calls (env : FetchEnv) (st : Store) (uid : String) (now : Nat)
    (sid : String) (calls : List Call) :
    (userSummaryStep env st uid now sid calls).calls = calls ++ [.summary sid, .sidr sid] := by
  unfold userSummaryStep
  rcases env.summary sid with _ | s <;> rfl

theorem getUserDataFetch_calls_ne (env : FetchEnv) (st : Store) (uid : String) (now : Nat) :
    (getUserDataFetch env st uid now).calls ≠ [] := by
  unfold getUserDataFetch
  rcases hsid : st.steamid.lookup ("steamid_" ++ uid) with _ | sid <;>
    rcases hmeta : st.steamidMeta.lookup ("steamid_meta_" ++ uid) with _ | ts
  · rcases hres : env.resolve uid with _ | sid2
    · simp
    · simp [userSummaryStep_calls]
  · rcases hres : env.resolve uid with _ | sid2
    · simp
    · simp [userSummaryStep_calls]
  · rcases hres : env.resolve uid with _ | sid2
    · simp
    · simp [userSummaryStep_calls]
  · by_cases hv : isCacheValid now ts STEAMID_CACHE_TTL
    · simp [hv, userSummaryStep_calls]
    · rcases hres : env.resolve uid with _ | sid2
      · simp [hv]
      · simp [hv, userSummaryStep_calls]

theorem getGameDataFetch_calls_ne (env : FetchEnv) (st : Store) (uid cc : String) (now : Nat) :
    (getGameDataFetch env st uid cc now).calls ≠ [] := by
  unfold getGameDataFetch
  rcases hsid : st.steamid.lookup ("steamid_" ++ uid) with _ | sid
  · rcases hres : env.resolve uid with _ | sid2
    · simp
    · rcases howned : env.owned sid2 with _ | gs <;> simp [howned]
  · rcases howned : env.owned sid with _ | gs <;> simp [howned]

/-- C7 (counterexample): a `steamid_` entry inserted at time 0 is more
than 7 days old at `now = 700000000` ms, yet `getGameData` uses it for
the owned-games call and issues no fresh resolution. -/
theorem stale_steamid_used_by_getGameData :
    STEAMID_CACHE_TTL ≤ 700000000 - 0
  ∧ Store.steamidMeta ⟨[("steamid_u", "SID")], [("steamid_meta_u", 0)], [], []⟩
      = [("steamid_meta_u", 0)]
  ∧ (getGameData { fenv0 with owned := fun _ => .error () }
        ⟨[("steamid_u", "SID")], [("steamid_meta_u", 0)], [], []⟩
        "u" "US" 700000000).calls = [Call.owned "SID"] := by
  refine ⟨by decide, rfl, by decide⟩

/-- C7 (amended): every TTL-checked cache read honours its bound — the
profile cache serves without upstream calls only entries younger than 1h,
the library cache only entries younger than 6h, the image cache skips
`loadImage` only for decodes younger than 24h (avatar) / 1h (static), and
`getUserData` re-resolves a vanity id whose `steamid_meta_` stamp is at
least 7 days old; `getGameData`, however, is the exception the original
claim excludes: it uses any cached resolved-ID regardless of age. -/
theorem cache_ttl_enforced (env : FetchEnv) (st : Store) (uid cc : String) (now : Nat)
    (load : Option Img) (cached : Option (Img × Nat)) (isAvatar : Bool) :
    ((getUserData env st uid now).calls = [] →
      ∃ d ts, st.user.lookup ("user_" ++ uid) = some (d, ts) ∧ now - ts < CACHE_TTL)
  ∧ ((getGameData env st uid cc now).calls = [] →
      ∃ d ts, st.games.lookup ("games_" ++ uid ++ "_" ++ cc) = some (d, ts)
        ∧ now - ts < GAME_DATA_CACHE_TTL)
  ∧ ((getCachedImageM load cached isAvatar now).didLoad = false →
      ∃ img ts, cached = some (img, ts) ∧ now - ts < imgTTL isAvatar)
  ∧ (st.user.lookup ("user_" ++ uid) = none →
      ∀ sid ts, st.steamid.lookup ("steamid_" ++ uid) = some sid →
        st.steamidMeta.lookup ("steamid_meta_" ++ uid) = some ts →
        STEAMID_CACHE_TTL ≤ now - ts →
        Call.resolve uid ∈ (getUserData env st uid now).calls) := by
  refine ⟨?_, ?_, ?_, ?_⟩
  · intro hcalls
    rcases hu : st.user.lookup ("user_" ++ uid) with _ | ⟨d, ts⟩
    · exact absurd (by simpa [getUserData, hu] using hcalls)
        (getUserDataFetch_calls_ne env st uid now)
    · by_cases hv : isCacheValid now ts CACHE_TTL
      · exact ⟨d, ts, rfl, by simpa [isCacheValid] using hv⟩
      · exact absurd (by simpa [getUserData, hu, hv] using hcalls)
          (getUserDataFetch_calls_ne env st uid now)
  · intro hcalls
    rcases hg : st.games.lookup ("games_" ++ uid ++ "_" ++ cc) with _ | ⟨d, ts⟩
    · exact absurd (by simpa [getGameData, hg] using hcalls)
        (getGameDataFetch_calls_ne env st uid cc now)
    · by_cases hv : isCacheValid now ts GAME_DATA_CACHE_TTL
      · exact ⟨d, ts, rfl, by simpa [isCacheValid] using hv⟩
      · exact absurd (by simpa [getGameData, hg, hv] using hcalls)
          (getGameDataFetch_calls_ne env st uid cc now)
  · intro hload
    rcases hc : cached with _ | ⟨img, ts⟩
    · rcases hl : load with _ | fresh <;> simp [getCachedImageM, hc, hl] at hload
    · by_cases hv : isCacheValid now ts (imgTTL isAvatar)
      · exact ⟨img, ts, rfl, by simpa [isCacheValid] using hv⟩
      · rcases hl : load with _ | fresh <;>
          simp [getCachedImageM, hc, hl, hv] at hload
  · intro hu sid ts hsid hmeta hstale
    have hv : ¬ isCacheValid now ts STEAMID_CACHE_TTL = true := by
      simp [isCacheValid]
      omega
    simp only [getUserData, hu]
    unfold getUserDataFetch
    rw [hsid, hmeta]
    simp only [hv, if_false]
    rcases hres : env.resolve uid with _ | sid2
    · simp
    · simp [userSummaryStep_calls]

/-- Concrete run of `cache_ttl_enforced`: `getUserData` does issue a
fresh resolution call for a 8.1-day-old `steamid_meta_` stamp. -/
theorem cache_ttl_enforced_witness :
    Call.resolve "u" ∈ (getUserData fenv0
      ⟨[("steamid_u", "SID")], [("steamid_meta_u", 0)], [], []⟩ "u" 700000000).calls :=
  (cache_ttl_enforced fenv0
      ⟨[("steamid_u", "SID")], [("steamid_meta_u", 0)], [], []⟩ "u" "US" 700000000
      none none false).2.2.2 rfl "SID" 0 (by decide) (by decide) (by decide)

theorem userSummaryStep_err_user (env : FetchEnv) (st : Store) (uid : String) (now : Nat)
    (sid : String) (calls : List Call)
    (h : (userSummaryStep env st uid now sid calls).result = .err) :
    (userSummaryStep env st uid now sid calls).store.user = st.user := by
  unfold userSummaryStep at h ⊢
  revert h
  rcases env.summary sid with _ | s
  · intro _
    rfl
  · intro h
    simp at h

theorem getUserDataFetch_err_user (env : FetchEnv) (st : Store) (uid : String) (now : Nat)
    (h : (getUserDataFetch env st uid now).result = .err) :
    (getUserDataFetch env st uid now).store.user = st.user := by
  unfold getUserDataFetch at h ⊢
  revert h
  rcases st.steamid.lookup ("steamid_" ++ uid) with _ | sid <;>
    rcases st.steamidMeta.lookup ("steamid_meta_" ++ uid) with _ | ts
  case' some.some =>
    by_cases hv : isCacheValid now ts STEAMID_CACHE_TTL <;>
      simp only [hv, if_true, if_false]
  all_goals
    first
    | exact fun h => userSummaryStep_err_user env st uid now _ _ h
    | (rcases env.resolve uid with _ | sid2
       · intro _
         rfl
       · exact fun h => userSummaryStep_err_user env _ uid now _ _ h)

theorem getGameDataFetch_err_games (env : FetchEnv) (st : Store) (uid cc : String) (now : Nat)
    (h : (getGameDataFetch env st uid cc now).result = .err) :
    (getGameDataFetch env st uid cc now).store.games = st.games := by
  unfold getGameDataFetch at h ⊢
  revert h
  rcases st.steamid.lookup ("steamid_" ++ uid) with _ | sid
  · dsimp only
    rcases env.resolve uid with _ | sid2
    · intro _
      rfl
    · dsimp only
      rcases env.owned sid2 with _ | gs
      · intro _
        rfl
      · intro h
        simp at h
  · dsimp only
    rcases env.owned sid with _ | gs
    · intro _
      rfl
    · intro h
      simp at h

theorem getUserData_err_user (env : FetchEnv) (st : Store) (uid : String) (now : Nat)
    (h : (getUserData env st uid now).result = .err) :
    (getUserData env st uid now).store.user = st.user := by
  unfold getUserData at h ⊢
  revert h
  rcases st.user.lookup ("user_" ++ uid) with _ | ⟨d, ts⟩
  · exact getUserDataFetch_err_user env st uid now
  · by_cases hv : isCacheValid now ts CACHE_TTL
    · intro h
      simp [hv] at h
    · simp only [hv, if_false]
      exact getUserDataFetch_err_user env st uid now

theorem getGameData_err_games (env : FetchEnv) (st : Store) (uid cc : String) (now : Nat)
    (h : (getGameData env st uid cc now).result = .err) :
    (getGameData env st uid cc now).store.games = st.games := by
  unfold getGameData at h ⊢
  revert h
  rcases st.games.lookup ("games_" ++ uid ++ "_" ++ cc) with _ | ⟨d, ts⟩
  · exact getGameDataFetch_err_games env st uid cc now
  · by_cases hv : isCacheValid now ts GAME_DATA_CACHE_TTL
    · intro h
      simp [hv] at h
    · simp only [hv, if_false]
      exact getGameDataFetch_err_games env st uid cc now

/-- C10: when `getUserData` or `getGameData` fails with its error marker,
the cache entry for its key is unchanged — the marker is never stored —
and a later request (at any `now2 ≥ now`, under any environment) goes
back upstream instead of serving the error from cache. -/
theorem errors_not_cached (env env2 : FetchEnv) (st : Store) (uid cc : String)
    (now now2 : Nat) (hnn : now ≤ now2) :
    ((getUserData env st uid now).result = .err →
        (getUserData env st uid now).store.user.lookup ("user_" ++ uid)
          = st.user.lookup ("user_" ++ uid)
      ∧ (getUserData env2 (getUserData env st uid now).store uid now2).calls ≠ [])
  ∧ ((getGameData env st uid cc now).result = .err →
        (getGameData env st uid cc now).store.games.lookup ("games_" ++ uid ++ "_" ++ cc)
          = st.games.lookup ("games_" ++ uid ++ "_" ++ cc)
      ∧ (getGameData env2 (getGameData env st uid cc now).store uid cc now2).calls ≠ []) := by
  constructor
  · intro hres
    have hst := getUserData_err_user env st uid now hres
    refine ⟨by rw [hst], ?_⟩
    set st2 := (getUserData env st uid now).store with hst2
    rcases hu : st.user.lookup ("user_" ++ uid) with _ | ⟨d, ts⟩
    · have hu2 : st2.user.lookup ("user_" ++ uid) = none := by rw [hst, hu]
      intro hcalls
      exact getUserDataFetch_calls_ne env2 st2 uid now2
        (by simpa [getUserData, hu2] using hcalls)
    · have hv : ¬ isCacheValid now ts CACHE_TTL = true := by
        intro hv
        rw [getUserData, hu] at hres
        simp [hv] at hres
      have hv2 : ¬ isCacheValid now2 ts CACHE_TTL = true := by
        simp only [isCacheValid, decide_eq_true_eq] at hv ⊢
        omega
      have hu2 : st2.user.lookup ("user_" ++ uid) = some (d, ts) := by rw [hst, hu]
      intro hcalls
      exact getUserDataFetch_calls_ne env2 st2 uid now2
        (by simpa [getUserData, hu2, hv2] using hcalls)
  · intro hres
    have hst := getGameData_err_games env st uid cc now hres
    refine ⟨by rw [hst], ?_⟩
    set st2 := (getGameData env st uid cc now).store with hst2
    rcases hg : st.games.lookup ("games_" ++ uid ++ "_" ++ cc) with _ | ⟨d, ts⟩
    · have hg2 : st2.games.lookup ("games_" ++ uid ++ "_" ++ cc) = none := by rw [hst, hg]
      intro hcalls
      exact getGameDataFetch_calls_ne env2 st2 uid cc now2
        (by simpa [getGameData, hg2] using hcalls)
    · have hv : ¬ isCacheValid now ts GAME_DATA_CACHE_TTL = true := by
        intro hv
        rw [getGameData, hg] at hres
        simp [hv] at hres
      have hv2 : ¬ isCacheValid now2 ts GAME_DATA_CACHE_TTL = true := by
        simp only [isCacheValid, decide_eq_true_eq] at hv ⊢
        omega
      have hg2 : st2.games.lookup ("games_" ++ uid ++ "_" ++ cc) = some (d, ts) := by
        rw [hst, hg]
      intro hcalls
      exact getGameDataFetch_calls_ne env2 st2 uid cc now2
        (by simpa [getGameData, hg2, hv2] using hcalls)

/-- Concrete run of `errors_not_cached`: a failing resolution leaves the
(empty) user cache empty. -/
theorem errors_not_cached_witness :
    (getUserData { fenv0 with resolve := fun _ => .error () }
        Store.empty "u" 0).store.user.lookup ("user_" ++ "u")
      = Store.empty.user.lookup ("user_" ++ "u") :=
  ((errors_not_cached { fenv0 with resolve := fun _ => .error () } fenv0
    Store.empty "u" "US" 0 0 (Nat.le_refl 0)).1 (by decide)).1

end Steeeam
